import Mathlib

/-!
# Security+ 2.0 protocol engine of esphome-ratgdo

A shallow embedding of `components/ratgdo/secplus2.cpp`: the packet codec
(`encode_packet`, `decode_packet`), the rolling code counter, the collision-aware
transmitter (`send_command`, `transmit_packet`), the frame reader (`read_command`),
the command dispatcher (`handle_command`), the door action, the synchronisation
handshake (`sync`) and the driver tick (`loop`).

Machine integers are natural numbers with an explicit reduction modulo `2^w`
wherever the C++ type truncates.  The object state is passed explicitly; what a
call does to the outside world (pin writes, serial writes, callbacks invoked) is
returned as a list of effects.
-/

namespace ratgdo

/-! ## Data model -/

/-- Modelled from the spec: `PACKET_LENGTH` is declared in `secplus2.h`, which is not
among the sources; the spec fixes the wire packet at 19 bytes. -/
def PACKET_LENGTH : Nat := 19

/-- The C array `uint8_t[PACKET_LENGTH]`, as the list of its bytes. -/
abbrev WirePacket := List Nat

/-- The struct `Command` built by `decode_packet` as `Command{cmd_type, nibble, byte1, byte2}`.
`type` is the 16-bit id of a `CommandType` enumerator, the other fields are `uint8_t`. -/
structure Command where
  type : Nat
  nibble : Nat
  byte1 : Nat
  byte2 : Nat
deriving DecidableEq, Repr

/-- Fields of a `Command` fit their C++ types. -/
def Command.WellFormed (c : Command) : Prop :=
  c.type < 2 ^ 16 ∧ c.nibble < 2 ^ 8 ∧ c.byte1 < 2 ^ 8 ∧ c.byte2 < 2 ^ 8

instance (c : Command) : Decidable c.WellFormed := by
  unfold Command.WellFormed; infer_instance

/-- The enumeration `CommandType` (an `ENUM(CommandType, uint16_t, ...)` of `secplus2.h`,
which is not among the sources) as a parameter: the ids of the enumerators that
`secplus2.cpp` names, and the ids of all further enumerators. -/
structure CommandTable where
  UNKNOWN : Nat
  GET_STATUS : Nat
  STATUS : Nat
  LOCK : Nat
  DOOR_ACTION : Nat
  LIGHT : Nat
  MOTOR_ON : Nat
  MOTION : Nat
  SET_TTC : Nat
  GET_OPENINGS : Nat
  OPENINGS : Nat
  others : List Nat

/-- Ids of all enumerators of `CommandType`. -/
def CommandTable.ids (tbl : CommandTable) : List Nat :=
  [tbl.UNKNOWN, tbl.GET_STATUS, tbl.STATUS, tbl.LOCK, tbl.DOOR_ACTION, tbl.LIGHT,
   tbl.MOTOR_ON, tbl.MOTION, tbl.SET_TTC, tbl.GET_OPENINGS, tbl.OPENINGS] ++ tbl.others

/-- Modelled from the spec: `to_CommandType` is generated by the `ENUM` macro of `macros.h`,
which is not among the sources; the spec says a command id is mapped to its
`CommandType`, and to the fallback (`UNKNOWN` at the call site) if unmapped. -/
def to_CommandType (tbl : CommandTable) (cmd : Nat) (fallback : Nat) : Nat :=
  if cmd ∈ tbl.ids then cmd else fallback

/-- The external wire transform of `secplus.h` (`encode_wireline`, `decode_wireline`),
a parameter of the development.  `decode_wireline` yields `(rolling, fixed, data)`. -/
structure WireCodec where
  encode_wireline : Nat → Nat → Nat → WirePacket
  decode_wireline : WirePacket → Nat × Nat × Nat

/-- The contract assumed of the wire transform: on a 28-bit rolling value, a 40-bit fixed
value and a 32-bit data value, decoding an encoded packet gives back rolling and fixed,
and data up to its parity nibble (bits 12..15). -/
def WireCodec.RoundTrips (codec : WireCodec) : Prop :=
  ∀ rolling fixed data, rolling < 2 ^ 28 → fixed < 2 ^ 40 → data < 2 ^ 32 →
    (codec.decode_wireline (codec.encode_wireline rolling fixed data)).1 = rolling ∧
    (codec.decode_wireline (codec.encode_wireline rolling fixed data)).2.1 = fixed ∧
    (codec.decode_wireline (codec.encode_wireline rolling fixed data)).2.2 < 2 ^ 32 ∧
    (codec.decode_wireline (codec.encode_wireline rolling fixed data)).2.2 &&& 0xFFFF0FFF
      = data &&& 0xFFFF0FFF

/-- Modelled from the spec: `OnceCallbacks<void()>` of `callbacks.h`, which is not among
the sources.  The spec has the registered `on_sent` notifications fired once by the
transmit that follows: `then` registers a callback, invoking the object calls every
registered callback in registration order and forgets them.  A callback is
identified by a tag. -/
structure OnceCallbacks where
  callbacks_ : List Nat
deriving DecidableEq, Repr

/-- The member `then(callback)`: register a callback. -/
def OnceCallbacks.then_ (cbs : OnceCallbacks) (callback : Nat) : OnceCallbacks :=
  { callbacks_ := cbs.callbacks_ ++ [callback] }

/-- The members of `Secplus2` that `secplus2.cpp` reads and writes. -/
structure Secplus2 where
  transmit_pending_ : Bool
  transmit_pending_start_ : Nat
  tx_packet_ : WirePacket
  command_sent_ : OnceCallbacks
  rolling_code_counter_ : Nat
  client_id_ : Nat
deriving DecidableEq, Repr

/-- What a call does to the outside world. -/
inductive Effect where
  | digital_write (level : Bool)
  | serial_write (packet : WirePacket)
  | on_sent (callback : Nat)
deriving DecidableEq, Repr

/-- What a transmit attempt observes: the successive `rx_pin_->digital_read()` samples
of the 1300 microsecond sensing window, and the value of `millis()`. -/
structure Line where
  rx_samples : List Bool
  millis : Nat
deriving DecidableEq, Repr

/-! ## Rolling code counter and client id -/

/-- The function `increment_rolling_code_counter(int delta)`:
`rolling_code_counter_ = (*rolling_code_counter_ + delta) & 0xfffffff`, the sum taken in
`uint32_t`. -/
def increment_rolling_code_counter (s : Secplus2) (delta : Int) : Secplus2 :=
  { s with rolling_code_counter_ :=
      (((s.rolling_code_counter_ : Int) + delta) % 2 ^ 32).toNat &&& 0xfffffff }

/-- Modelled from the spec: the default of `delta` is declared in `secplus2.h`, which is
not among the sources; the spec advances the counter by 1 on a send. -/
def increment_default_delta : Int := 1

/-- The function `set_rolling_code_counter(uint32_t counter)`: `rolling_code_counter_ = counter`. -/
def set_rolling_code_counter (s : Secplus2) (counter : Nat) : Secplus2 :=
  { s with rolling_code_counter_ := counter % 2 ^ 32 }

/-- The function `set_client_id(uint64_t client_id)`: `client_id_ = client_id & 0xFFFFFFFF`. -/
def set_client_id (s : Secplus2) (client_id : Nat) : Secplus2 :=
  { s with client_id_ := (client_id % 2 ^ 64) &&& 0xFFFFFFFF }

/-! ## Packet codec -/

/-- The `fixed` argument `encode_packet` passes to `encode_wireline`:
`((cmd & ~0xff) << 24) | client_id_` in `uint64_t`. -/
def encode_fixed (s : Secplus2) (command : Command) : Nat :=
  let cmd := command.type % 2 ^ 64
  (((cmd &&& 0xFFFFFFFFFFFFFF00) <<< 24) % 2 ^ 64) ||| s.client_id_

/-- The `data` argument `encode_packet` passes to `encode_wireline`:
`(byte2 << 24) | (byte1 << 16) | (nibble << 8) | (cmd & 0xff)`, computed in `uint64_t`
and stored in a `uint32_t`. -/
def encode_data (command : Command) : Nat :=
  let cmd := command.type % 2 ^ 64
  ((command.byte2 <<< 24) ||| (command.byte1 <<< 16) ||| (command.nibble <<< 8)
    ||| (cmd &&& 0xff)) % 2 ^ 32

/-- The function `encode_packet(command, packet)`: the bytes written to `packet`.  The function reads
`rolling_code_counter_` and `client_id_` and writes nothing but `packet`. -/
def encode_packet (codec : WireCodec) (s : Secplus2) (command : Command) : WirePacket :=
  codec.encode_wireline s.rolling_code_counter_ (encode_fixed s command) (encode_data command)

/-- The function `decode_packet(packet)`. -/
def decode_packet (codec : WireCodec) (tbl : CommandTable) (s : Secplus2)
    (packet : WirePacket) : Option Command :=
  let fixed := (codec.decode_wireline packet).2.1 % 2 ^ 64
  let data := (codec.decode_wireline packet).2.2 % 2 ^ 32
  let cmd := (((fixed >>> 24) &&& 0xf00) ||| (data &&& 0xff)) % 2 ^ 16
  let data := data &&& 0xFFFF0FFF
  if (fixed &&& 0xFFFFFFFF) = s.client_id_ then
    none
  else
    let cmd_type := to_CommandType tbl cmd tbl.UNKNOWN
    let nibble := ((data >>> 8) &&& 0xff) % 2 ^ 8
    let byte1 := ((data >>> 16) &&& 0xff) % 2 ^ 8
    let byte2 := ((data >>> 24) &&& 0xff) % 2 ^ 8
    some { type := cmd_type, nibble := nibble, byte1 := byte1, byte2 := byte2 }

/-! ## Transmitter -/

/-- Invoking the `OnceCallbacks` object: every registered callback is called, in
registration order, and the registrations are dropped. -/
def OnceCallbacks.fire (cbs : OnceCallbacks) : List Effect × OnceCallbacks :=
  (cbs.callbacks_.map Effect.on_sent, { callbacks_ := [] })

/-- The function `transmit_packet()`: the new state, the returned flag and the effects.  The sensing
loop returns from its collision branch at the first active sample; if no sample of the
window is active the break signal and the packet are written. -/
def transmit_packet (s : Secplus2) (line : Line) : Secplus2 × Bool × List Effect :=
  if line.rx_samples.any id then
    if !s.transmit_pending_ then
      ({ s with transmit_pending_ := true, transmit_pending_start_ := line.millis % 2 ^ 32 },
        false, [])
    else if (line.millis % 2 ^ 32 + 2 ^ 32 - s.transmit_pending_start_) % 2 ^ 32 < 5000 then
      (s, false, [])
    else
      ({ s with transmit_pending_start_ := 0 }, false, [])
  else
    ({ s with transmit_pending_ := false, transmit_pending_start_ := 0,
              command_sent_ := s.command_sent_.fire.2 },
      true,
      [Effect.digital_write true, Effect.digital_write false, Effect.serial_write s.tx_packet_]
        ++ s.command_sent_.fire.1)

/-- The function `send_command(Command command, bool increment)`. -/
def send_command (codec : WireCodec) (s : Secplus2) (command : Command) (increment : Bool)
    (line : Line) : Secplus2 × List Effect :=
  let s1 :=
    if !s.transmit_pending_ then
      let s0 := { s with tx_packet_ := encode_packet codec s command }
      if increment then increment_rolling_code_counter s0 increment_default_delta else s0
    else
      s
  ((transmit_packet s1 line).1, (transmit_packet s1 line).2.2)

/-- The function `send_command(Command command, bool increment, std::function<void()>&& on_sent)`:
`command_sent_.then(on_sent)` followed by `send_command(command, increment)`. -/
def send_command_on_sent (codec : WireCodec) (s : Secplus2) (command : Command)
    (increment : Bool) (on_sent : Nat) (line : Line) : Secplus2 × List Effect :=
  send_command codec { s with command_sent_ := s.command_sent_.then_ on_sent }
    command increment line

/-- Default arguments declared in `secplus2.h`, which is not among the sources, as a
parameter: the default of `increment` in `send_command(Command, bool increment)` and
the defaults of `nibble`, `byte1`, `byte2` in the constructor of `Command`. -/
structure Defaults where
  increment : Bool
  nibble : Nat
  byte1 : Nat
  byte2 : Nat

/-- The implicit conversion of a `CommandType` to a `Command`. -/
def Command.of_type (d : Defaults) (type : Nat) : Command :=
  { type := type, nibble := d.nibble, byte1 := d.byte1, byte2 := d.byte2 }

/-- The tagged union `Args` of `common.h`. -/
inductive Args where
  | set_rolling_code_counter (counter : Nat)
  | get_rolling_code_counter
  | set_client_id (client_id : Nat)
  | query_status
  | query_openings
deriving DecidableEq, Repr

/-- The function `call(Args args)`.  The `Result` is `none` when empty; a `RollingCodeCounter` result
points at the live counter and is given as the value the counter holds. -/
def call (codec : WireCodec) (tbl : CommandTable) (d : Defaults) (s : Secplus2) (args : Args)
    (line : Line) : Secplus2 × Option Nat × List Effect :=
  match args with
  | Args.query_status =>
    let r := send_command codec s (Command.of_type d tbl.GET_STATUS) d.increment line
    (r.1, none, r.2)
  | Args.query_openings =>
    let r := send_command codec s (Command.of_type d tbl.GET_OPENINGS) d.increment line
    (r.1, none, r.2)
  | Args.get_rolling_code_counter => (s, some s.rolling_code_counter_, [])
  | Args.set_rolling_code_counter counter => (set_rolling_code_counter s counter, none, [])
  | Args.set_client_id client_id => (set_client_id s client_id, none, [])

/-! ## Frame reader -/

/-- The function-level statics of `read_command`. -/
structure ReadStatics where
  reading_msg : Bool
  msg_start : Nat
  byte_count : Nat
  rx_packet : WirePacket
  last_read : Nat
deriving DecidableEq, Repr

/-- The statics as initialised at program start; the packet buffer has static storage
and is therefore zero-filled. -/
def ReadStatics.init : ReadStatics :=
  { reading_msg := false, msg_start := 0, byte_count := 0,
    rx_packet := List.replicate PACKET_LENGTH 0, last_read := 0 }

/-- The loop of the `!reading_msg` branch of `read_command` over the available bytes:
the statics after the loop and the bytes left in the serial buffer.  Every `millis()`
of one call of `read_command` is taken to return the same value `now`. -/
def idle_loop (now : Nat) : ReadStatics → List Nat → ReadStatics × List Nat
  | s, [] => (s, [])
  | s, b :: rest =>
    let ser_byte := b % 2 ^ 8
    let s1 := { s with last_read := now % 2 ^ 32 }
    if ser_byte ≠ 0x55 ∧ ser_byte ≠ 0x01 ∧ ser_byte ≠ 0x00 then
      idle_loop now { s1 with byte_count := 0 } rest
    else
      let s2 := { s1 with
        msg_start := ((((s1.msg_start <<< 8) % 2 ^ 32) ||| ser_byte) &&& 0xffffff) % 2 ^ 32,
        byte_count := (s1.byte_count + 1) % 2 ^ 16 }
      if s2.msg_start = 0x550100 then
        ({ s2 with rx_packet := ((s2.rx_packet.set 0 0x55).set 1 0x01).set 2 0x00,
                   reading_msg := true }, rest)
      else
        idle_loop now s2 rest

/-- The byte loop of the `reading_msg` branch of `read_command`: the statics, the bytes
left in the serial buffer, and the completed packet handed to `decode_packet`, if any.
A write `rx_packet[byte_count]` past the end of the buffer is undefined in C++; here it
leaves the buffer as it is. -/
def frame_loop (now : Nat) : ReadStatics → List Nat → ReadStatics × List Nat × Option WirePacket
  | s, [] => (s, [], none)
  | s, b :: rest =>
    let ser_byte := b % 2 ^ 8
    let s1 := { s with last_read := now % 2 ^ 32,
                       rx_packet := s.rx_packet.set s.byte_count ser_byte,
                       byte_count := (s.byte_count + 1) % 2 ^ 16 }
    if s1.byte_count = PACKET_LENGTH then
      ({ s1 with reading_msg := false, byte_count := 0 }, rest, some s1.rx_packet)
    else
      frame_loop now s1 rest

/-- The framing part of `read_command()`, up to the call of `decode_packet`: given the
statics, the value of `millis()` and the bytes available on the serial port, the new
statics, the bytes left unread and the packet handed to `decode_packet`, if any. -/
def read_packet (s : ReadStatics) (now : Nat) (available : List Nat) :
    ReadStatics × List Nat × Option WirePacket :=
  let r1 := if !s.reading_msg then idle_loop now s available else (s, available)
  if r1.1.reading_msg then
    match frame_loop now r1.1 r1.2 with
    | (s2, rest, some packet) => (s2, rest, some packet)
    | (s2, rest, none) =>
      if (now % 2 ^ 32 + 2 ^ 32 - s2.last_read) % 2 ^ 32 > 100 then
        ({ s2 with reading_msg := false, byte_count := 0 }, rest, none)
      else
        (s2, rest, none)
  else
    (r1.1, r1.2, none)

/-- The function `read_command()`: `read_packet` followed by `decode_packet` on a completed packet. -/
def read_command (codec : WireCodec) (tbl : CommandTable) (sec : Secplus2) (s : ReadStatics)
    (now : Nat) (available : List Nat) : ReadStatics × List Nat × Option Command :=
  ((read_packet s now available).1, (read_packet s now available).2.1,
    (read_packet s now available).2.2.bind (decode_packet codec tbl sec))

/-- A byte stream fed to `read_command` one byte at a time: each element is a time in
milliseconds and the one byte that is available when `read_command` is called at that
time.  The result lists, call by call, the packet handed to `decode_packet`. -/
def feed : ReadStatics → List (Nat × Nat) → List (Option WirePacket)
  | _, [] => []
  | s, (now, b) :: rest =>
    (read_packet s now [b]).2.2 :: feed (read_packet s now [b]).1 rest

/-! ## Reference instances of the parameters -/

/-- The `n` low bytes of `x`, least significant first. -/
def le_bytes : Nat → Nat → List Nat
  | 0, _ => []
  | n + 1, x => x % 256 :: le_bytes n (x / 256)

/-- The number whose bytes, least significant first, are given. -/
def of_le_bytes : List Nat → Nat
  | [] => 0
  | b :: bs => b + 256 * of_le_bytes bs

/-- A wire transform that meets `WireCodec.RoundTrips`: after the preamble it stores
rolling in 4 bytes, fixed in 5 bytes and data in 4 bytes, having replaced the parity
nibble of data (bits 12..15) by the value 5. -/
def sampleCodec : WireCodec where
  encode_wireline rolling fixed data :=
    [0x55, 0x01, 0x00] ++ le_bytes 4 rolling ++ le_bytes 5 fixed
      ++ le_bytes 4 (data / 65536 % 65536 * 65536 + 0x5000 + data % 4096) ++ [0, 0, 0]
  decode_wireline packet :=
    (of_le_bytes ((packet.drop 3).take 4), of_le_bytes ((packet.drop 7).take 5),
      of_le_bytes ((packet.drop 12).take 4))

/-- A `CommandType` table with 12-bit ids. -/
def sampleTable : CommandTable where
  UNKNOWN := 0x000
  GET_STATUS := 0x080
  STATUS := 0x081
  LOCK := 0x18c
  DOOR_ACTION := 0x280
  LIGHT := 0x281
  MOTOR_ON := 0x284
  MOTION := 0x285
  SET_TTC := 0x402
  GET_OPENINGS := 0x48b
  OPENINGS := 0x48c
  others := []

/-- A `Secplus2` object with nothing pending, no callback registered, a zeroed
transmit buffer, rolling counter 0 and the given client id. -/
def sampleState (client_id : Nat) : Secplus2 :=
  { transmit_pending_ := false, transmit_pending_start_ := 0,
    tx_packet_ := List.replicate PACKET_LENGTH 0, command_sent_ := { callbacks_ := [] },
    rolling_code_counter_ := 0, client_id_ := client_id }

/-- A sensing window during which the receive line is active. -/
def busyLine (millis : Nat) : Line := { rx_samples := [true], millis := millis }

/-- A sensing window during which the receive line stays idle. -/
def clearLine (millis : Nat) : Line :=
  { rx_samples := List.replicate 13 false, millis := millis }

/-- A stream fed one byte per call, one millisecond apart: an idle-time byte `0x00`, the
preamble `0x55 0x01 0x00`, then the 15 bytes `0xA0 .. 0xAE`. -/
def strayZeroStream : List (Nat × Nat) :=
  [(0, 0x00), (1, 0x55), (2, 0x01), (3, 0x00),
   (4, 0xA0), (5, 0xA1), (6, 0xA2), (7, 0xA3), (8, 0xA4), (9, 0xA5), (10, 0xA6), (11, 0xA7),
   (12, 0xA8), (13, 0xA9), (14, 0xAA), (15, 0xAB), (16, 0xAC), (17, 0xAD), (18, 0xAE)]

/-! ## States and actions (`ratgdo_state.h`) -/

/-- The enumeration `ENUM(DoorState, uint8_t, (UNKNOWN, 0), (OPEN, 1), (CLOSED, 2), (STOPPED, 3),
(OPENING, 4), (CLOSING, 5))`. -/
inductive DoorState where
  | UNKNOWN | OPEN | CLOSED | STOPPED | OPENING | CLOSING
deriving DecidableEq, Repr

/-- The enumeration `ENUM(LightState, uint8_t, (OFF, 0), (ON, 1), (UNKNOWN, 2))`. -/
inductive LightState where
  | OFF | ON | UNKNOWN
deriving DecidableEq, Repr

/-- The enumeration `ENUM(LockState, uint8_t, (UNLOCKED, 0), (LOCKED, 1), (UNKNOWN, 2))`. -/
inductive LockState where
  | UNLOCKED | LOCKED | UNKNOWN
deriving DecidableEq, Repr

/-- The enumeration `ENUM(MotionState, uint8_t, (CLEAR, 0), (DETECTED, 1), (UNKNOWN, 2))`. -/
inductive MotionState where
  | CLEAR | DETECTED | UNKNOWN
deriving DecidableEq, Repr

/-- The enumeration `ENUM(ObstructionState, uint8_t, (OBSTRUCTED, 0), (CLEAR, 1), (UNKNOWN, 2))`. -/
inductive ObstructionState where
  | OBSTRUCTED | CLEAR | UNKNOWN
deriving DecidableEq, Repr

/-- The enumeration `ENUM(MotorState, uint8_t, (OFF, 0), (ON, 1), (UNKNOWN, 2))`. -/
inductive MotorState where
  | OFF | ON | UNKNOWN
deriving DecidableEq, Repr

/-- The enumeration `ENUM(ButtonState, uint8_t, (PRESSED, 0), (RELEASED, 1), (UNKNOWN, 2))`. -/
inductive ButtonState where
  | PRESSED | RELEASED | UNKNOWN
deriving DecidableEq, Repr

/-- The enumeration `ENUM(LightAction, uint8_t, (OFF, 0), (ON, 1), (TOGGLE, 2), (UNKNOWN, 3))`. -/
inductive LightAction where
  | OFF | ON | TOGGLE | UNKNOWN
deriving DecidableEq, Repr

/-- The enumeration `ENUM(DoorAction, uint8_t, (CLOSE, 0), (OPEN, 1), (TOGGLE, 2), (STOP, 3), (UNKNOWN, 4))`. -/
inductive DoorAction where
  | CLOSE | OPEN | TOGGLE | STOP | UNKNOWN
deriving DecidableEq, Repr

/-- The value `static_cast<uint8_t>(action)` for a `DoorAction`. -/
def DoorAction.value : DoorAction → Nat
  | .CLOSE => 0
  | .OPEN => 1
  | .TOGGLE => 2
  | .STOP => 3
  | .UNKNOWN => 4

/-- Modelled from the spec: `to_DoorState` is generated by the `ENUM` macro of `macros.h`,
which is not among the sources; as for `to_CommandType`, a value is mapped to the
enumerator that carries it and to the fallback if there is none. -/
def to_DoorState (value : Nat) (fallback : DoorState) : DoorState :=
  if value = 0 then .UNKNOWN
  else if value = 1 then .OPEN
  else if value = 2 then .CLOSED
  else if value = 3 then .STOPPED
  else if value = 4 then .OPENING
  else if value = 5 then .CLOSING
  else fallback

/-- Modelled from the spec: `to_LightState`, generated by the `ENUM` macro like
`to_DoorState`. -/
def to_LightState (value : Nat) (fallback : LightState) : LightState :=
  if value = 0 then .OFF else if value = 1 then .ON else if value = 2 then .UNKNOWN
  else fallback

/-- Modelled from the spec: `to_LockState`, generated by the `ENUM` macro like
`to_DoorState`. -/
def to_LockState (value : Nat) (fallback : LockState) : LockState :=
  if value = 0 then .UNLOCKED else if value = 1 then .LOCKED else if value = 2 then .UNKNOWN
  else fallback

/-- Modelled from the spec: `to_ObstructionState`, generated by the `ENUM` macro like
`to_DoorState`. -/
def to_ObstructionState (value : Nat) (fallback : ObstructionState) : ObstructionState :=
  if value = 0 then .OBSTRUCTED else if value = 1 then .CLEAR
  else if value = 2 then .UNKNOWN else fallback

/-- Modelled from the spec: `to_LightAction`, generated by the `ENUM` macro like
`to_DoorState`. -/
def to_LightAction (value : Nat) (fallback : LightAction) : LightAction :=
  if value = 0 then .OFF else if value = 1 then .ON else if value = 2 then .TOGGLE
  else if value = 3 then .UNKNOWN else fallback

/-! ## Command dispatcher -/

/-- A call of one of the overloads of `RATGDOComponent::received`, with its argument. -/
inductive Received where
  | door_state (state : DoorState)
  | light_state (state : LightState)
  | lock_state (state : LockState)
  | obstruction_state (state : ObstructionState)
  | light_action (action : LightAction)
  | motor_state (state : MotorState)
  | button_state (state : ButtonState)
  | motion_state (state : MotionState)
  | openings (count : Nat) (flag : Nat)
  | time_to_close (seconds : Nat)
deriving DecidableEq, Repr

/-- The function `handle_command(cmd)`: the calls of `ratgdo_->received`, in order. -/
def handle_command (tbl : CommandTable) (cmd : Command) : List Received :=
  if cmd.type = tbl.STATUS then
    [Received.door_state (to_DoorState cmd.nibble DoorState.UNKNOWN),
     Received.light_state (to_LightState ((cmd.byte2 >>> 1) &&& 1) LightState.UNKNOWN),
     Received.lock_state (to_LockState (cmd.byte2 &&& 1) LockState.UNKNOWN),
     Received.obstruction_state
       (to_ObstructionState ((cmd.byte1 >>> 6) &&& 1) ObstructionState.UNKNOWN)]
  else if cmd.type = tbl.LIGHT then
    [Received.light_action (to_LightAction cmd.nibble LightAction.UNKNOWN)]
  else if cmd.type = tbl.MOTOR_ON then
    [Received.motor_state MotorState.ON]
  else if cmd.type = tbl.DOOR_ACTION then
    [Received.button_state
      (if (cmd.byte1 &&& 1) = 1 then ButtonState.PRESSED else ButtonState.RELEASED)]
  else if cmd.type = tbl.MOTION then
    [Received.motion_state MotionState.DETECTED]
  else if cmd.type = tbl.OPENINGS then
    [Received.openings (((cmd.byte1 <<< 8) ||| cmd.byte2) % 2 ^ 16) cmd.nibble]
  else if cmd.type = tbl.SET_TTC then
    [Received.time_to_close (((cmd.byte1 <<< 8) ||| cmd.byte2) % 2 ^ 16)]
  else
    []

/-! ## Door action -/

/-- The constant `static const uint8_t MAX_CODES_WITHOUT_FLASH_WRITE = 10`. -/
def MAX_CODES_WITHOUT_FLASH_WRITE : Nat := 10

/-- The constant `const uint8_t MAX_ATTEMPTS = 10` of `sync()`. -/
def MAX_ATTEMPTS : Nat := 10

/-- The result of a retry callback. -/
inductive RetryResult where
  | DONE | RETRY
deriving DecidableEq, Repr

/-- The members of `RATGDOComponent` (`ratgdo.h`) that `sync()` reads and writes. -/
structure RATGDOComponent where
  door_state : DoorState
  openings : Nat
  sync_failed : Bool
deriving DecidableEq, Repr

/-- What one call leaves behind: both objects, the returned `RetryResult`, the commands
passed to `send_command`, and the effects. -/
structure SyncOutcome where
  ratgdo : RATGDOComponent
  sec : Secplus2
  result : RetryResult
  requests : List Command
  effects : List Effect
deriving DecidableEq, Repr

/-- The lambda `sync_step` of `sync()`. -/
def sync_step (codec : WireCodec) (tbl : CommandTable) (d : Defaults) (g : RATGDOComponent)
    (s : Secplus2) (line : Line) : SyncOutcome :=
  if g.door_state = DoorState.UNKNOWN then
    { ratgdo := g,
      sec := (send_command codec s (Command.of_type d tbl.GET_STATUS) d.increment line).1,
      result := RetryResult.RETRY,
      requests := [Command.of_type d tbl.GET_STATUS],
      effects := (send_command codec s (Command.of_type d tbl.GET_STATUS) d.increment line).2 }
  else if g.openings = 0 then
    { ratgdo := g,
      sec := (send_command codec s (Command.of_type d tbl.GET_OPENINGS) d.increment line).1,
      result := RetryResult.RETRY,
      requests := [Command.of_type d tbl.GET_OPENINGS],
      effects := (send_command codec s (Command.of_type d tbl.GET_OPENINGS) d.increment line).2 }
  else
    { ratgdo := g, sec := s, result := RetryResult.DONE, requests := [], effects := [] }

/-- The retry callback `[=](uint8_t r) { ... }` that `sync()` hands to `set_retry`. -/
def sync_retry (codec : WireCodec) (tbl : CommandTable) (d : Defaults) (r : Nat)
    (g : RATGDOComponent) (s : Secplus2) (line : Line) : SyncOutcome :=
  let step := sync_step codec tbl d g s line
  if step.result = RetryResult.RETRY then
    let sec1 :=
      if r = MAX_ATTEMPTS - 2 ∧ g.door_state = DoorState.UNKNOWN then
        increment_rolling_code_counter step.sec MAX_CODES_WITHOUT_FLASH_WRITE
      else
        step.sec
    let g1 := if r = 0 then { step.ratgdo with sync_failed := true } else step.ratgdo
    { step with ratgdo := g1, sec := sec1 }
  else
    step

/-- What an attempt finds: the observables as inbound frames have left them, and the
line. -/
structure Observation where
  door_state : DoorState
  openings : Nat
  line : Line
deriving DecidableEq, Repr

/-- Modelled from the spec: `set_retry` belongs to the host scheduler, which is not among
the sources.  The spec has it make up to `max_attempts` attempts, the final attempt
having index 0, and stop retrying on `DONE`: the callback is called with the index
`max_attempts - 1` first and one less on each retry.  The result lists, attempt by
attempt, the index passed and the outcome of the callback of `sync()`. -/
def set_retry (codec : WireCodec) (tbl : CommandTable) (d : Defaults) :
    Nat → Bool → Secplus2 → List Observation → List (Nat × SyncOutcome)
  | 0, _, _, _ => []
  | _ + 1, _, _, [] => []
  | n + 1, sync_failed, s, o :: rest =>
    let out := sync_retry codec tbl d n
      { door_state := o.door_state, openings := o.openings, sync_failed := sync_failed } s o.line
    (n, out) ::
      (if out.result = RetryResult.DONE then []
       else set_retry codec tbl d n out.ratgdo.sync_failed out.sec rest)

/-- The function `sync()`: the attempts made by the scheduler, given what each attempt finds. -/
def sync (codec : WireCodec) (tbl : CommandTable) (d : Defaults) (sync_failed : Bool)
    (s : Secplus2) (observations : List Observation) : List (Nat × SyncOutcome) :=
  set_retry codec tbl d MAX_ATTEMPTS sync_failed s observations

/-! ## Runs of the transmitter and further reference instances -/

/-- The states after each of a series of transmit attempts, one per `Line`. -/
def transmit_attempts : Secplus2 → List Line → List Secplus2
  | _, [] => []
  | s, line :: rest =>
    (transmit_packet s line).1 :: transmit_attempts (transmit_packet s line).1 rest

/-- Default arguments: `increment = true`, and zero for the fields of a `Command`. -/
def sampleDefaults : Defaults := { increment := true, nibble := 0, byte1 := 0, byte2 := 0 }

/-- Ten attempts that find the door state unknown, no openings learned and a clear line,
at times 500, 1500, ... -/
def silentObservations : List Observation :=
  (List.range 10).map fun i =>
    { door_state := DoorState.UNKNOWN, openings := 0, line := clearLine (500 + 1000 * i) }

/-- The ids of the enumerators that `secplus2.cpp` names are pairwise different. -/
def CommandTable.Distinct (tbl : CommandTable) : Prop :=
  [tbl.UNKNOWN, tbl.GET_STATUS, tbl.STATUS, tbl.LOCK, tbl.DOOR_ACTION, tbl.LIGHT,
   tbl.MOTOR_ON, tbl.MOTION, tbl.SET_TTC, tbl.GET_OPENINGS, tbl.OPENINGS].Nodup

/-- The statics after a byte stream has been fed to `read_command` one byte at a time,
as in `feed`. -/
def feed_state : ReadStatics → List (Nat × Nat) → ReadStatics
  | s, [] => s
  | s, (now, b) :: rest => feed_state (read_packet s now [b]).1 rest

/-- A stream fed one byte per call, one millisecond apart: the preamble interrupted by
the rejected byte `0xFF`, that is `0x55 0x01 0xFF 0x00`. -/
def interruptedPreamble : List (Nat × Nat) := [(1, 0x55), (2, 0x01), (3, 0xFF), (4, 0x00)]

/-- A stream fed one byte per call, one millisecond apart: an idle-time byte `0x00`, the
preamble `0x55 0x01 0x00`, then the 16 bytes `0xB0 .. 0xBF`. -/
def strayZeroFrame : List (Nat × Nat) :=
  [(0, 0x00), (1, 0x55), (2, 0x01), (3, 0x00),
   (4, 0xB0), (5, 0xB1), (6, 0xB2), (7, 0xB3), (8, 0xB4), (9, 0xB5), (10, 0xB6), (11, 0xB7),
   (12, 0xB8), (13, 0xB9), (14, 0xBA), (15, 0xBB), (16, 0xBC), (17, 0xBD), (18, 0xBE),
   (19, 0xBF)]


/-! ## Driver tick -/

/-- What one call of `loop()` leaves behind: the object, the statics of `read_command`,
the bytes left in the serial buffer, the effects of the transmit attempt and the calls
of `ratgdo_->received` made by `handle_command`. -/
structure LoopOutcome where
  sec : Secplus2
  statics : ReadStatics
  available : List Nat
  effects : List Effect
  received : List Received
deriving DecidableEq, Repr

/-- The second half of `loop()`: `read_command()` and, if it returns a command,
`handle_command`.  The effects of the first half are handed through. -/
def loop_read (codec : WireCodec) (tbl : CommandTable) (sec : Secplus2) (statics : ReadStatics)
    (now : Nat) (available : List Nat) (effects : List Effect) : LoopOutcome :=
  { sec := sec,
    statics := (read_command codec tbl sec statics now available).1,
    available := (read_command codec tbl sec statics now available).2.1,
    effects := effects,
    received :=
      match (read_command codec tbl sec statics now available).2.2 with
      | some cmd => handle_command tbl cmd
      | none => [] }

/-- The function `loop()`: `line` is what a transmit attempt of this tick observes, `now`
the value of `millis()` in `read_command` and `available` the bytes waiting on the
serial port. -/
def loop (codec : WireCodec) (tbl : CommandTable) (sec : Secplus2) (statics : ReadStatics)
    (line : Line) (now : Nat) (available : List Nat) : LoopOutcome :=
  if sec.transmit_pending_ = true then
    if (transmit_packet sec line).2.1 = false then
      { sec := (transmit_packet sec line).1, statics := statics, available := available,
        effects := (transmit_packet sec line).2.2, received := [] }
    else
      loop_read codec tbl (transmit_packet sec line).1 statics now available
        (transmit_packet sec line).2.2
  else
    loop_read codec tbl sec statics now available []

/-! ## Write indices of the frame reader -/

/-- The indices `byte_count` of the writes `rx_packet[byte_count] = ser_byte` made by the
byte loop of the `reading_msg` branch, in the order of the writes; the statics evolve as
in `frame_loop`. -/
def frame_loop_writes (now : Nat) : ReadStatics → List Nat → List Nat
  | _, [] => []
  | s, b :: rest =>
    let ser_byte := b % 2 ^ 8
    let s1 := { s with last_read := now % 2 ^ 32,
                       rx_packet := s.rx_packet.set s.byte_count ser_byte,
                       byte_count := (s.byte_count + 1) % 2 ^ 16 }
    s.byte_count ::
      (if s1.byte_count = PACKET_LENGTH then [] else frame_loop_writes now s1 rest)

/-- The indices of the writes `rx_packet[byte_count] = ser_byte` made by one call of
`read_command()`. -/
def read_packet_writes (s : ReadStatics) (now : Nat) (available : List Nat) : List Nat :=
  let r1 := if !s.reading_msg then idle_loop now s available else (s, available)
  if r1.1.reading_msg then frame_loop_writes now r1.1 r1.2 else []

/-- The indices of the writes `rx_packet[byte_count] = ser_byte` made while a byte stream
is fed to `read_command` one byte at a time, as in `feed`. -/
def feed_writes : ReadStatics → List (Nat × Nat) → List Nat
  | _, [] => []
  | s, (now, b) :: rest =>
    read_packet_writes s now [b] ++ feed_writes (read_packet s now [b]).1 rest

/-- A stream fed one byte per call, one millisecond apart: 16 idle-time bytes `0x00`, the
preamble `0x55 0x01 0x00`, then the byte `0xAA`. -/
def sixteenZerosStream : List (Nat × Nat) :=
  [(0, 0x00), (1, 0x00), (2, 0x00), (3, 0x00), (4, 0x00), (5, 0x00), (6, 0x00), (7, 0x00),
   (8, 0x00), (9, 0x00), (10, 0x00), (11, 0x00), (12, 0x00), (13, 0x00), (14, 0x00),
   (15, 0x00), (16, 0x55), (17, 0x01), (18, 0x00), (19, 0xAA)]

/-- A mid-frame state of the reader: preamble seen, four bytes of the frame stored, the
last byte read at 1000 ms. -/
def midFrameStatics : ReadStatics :=
  { reading_msg := true, msg_start := 0x550100, byte_count := 7,
    rx_packet := [0x55, 0x01, 0x00, 0xA0, 0xA1, 0xA2, 0xA3, 0, 0, 0, 0, 0, 0, 0, 0, 0, 0, 0, 0],
    last_read := 1000 }

/-! ## Bit arithmetic -/

theorem or_eq_add (k a b : Nat) (ha : a % 2 ^ k = 0) (hb : b < 2 ^ k) : a ||| b = a + b := by
  have h := Nat.mul_add_lt_is_or hb (a / 2 ^ k)
  have h2 : 2 ^ k * (a / 2 ^ k) = a := by
    have := Nat.div_add_mod a (2 ^ k)
    omega
  rw [h2] at h
  exact h.symm

theorem and_shiftLeft_mask (x m k : Nat) : x &&& (m <<< k) = ((x >>> k) &&& m) <<< k := by
  apply Nat.eq_of_testBit_eq
  intro i
  simp only [Nat.testBit_and, Nat.testBit_shiftLeft, Nat.testBit_shiftRight]
  by_cases h : k ≤ i
  · have : k + (i - k) = i := by omega
    simp [h, this]
  · simp [h]

theorem and_0xf00 (x : Nat) : x &&& 0xf00 = x / 256 % 16 * 256 := by
  have h : (0xf00 : Nat) = (2 ^ 4 - 1) <<< 8 := by decide
  rw [h, and_shiftLeft_mask, Nat.and_pow_two_sub_one_eq_mod, Nat.shiftLeft_eq,
    Nat.shiftRight_eq_div_pow]

theorem and_0xff (x : Nat) : x &&& 0xff = x % 256 := by
  have h : (0xff : Nat) = 2 ^ 8 - 1 := by decide
  rw [h, Nat.and_pow_two_sub_one_eq_mod]

theorem and_0xFFFFFFFF (x : Nat) : x &&& 0xFFFFFFFF = x % 2 ^ 32 := by
  have h : (0xFFFFFFFF : Nat) = 2 ^ 32 - 1 := by decide
  rw [h, Nat.and_pow_two_sub_one_eq_mod]

theorem and_0xfffffff (x : Nat) : x &&& 0xfffffff = x % 2 ^ 28 := by
  have h : (0xfffffff : Nat) = 2 ^ 28 - 1 := by decide
  rw [h, Nat.and_pow_two_sub_one_eq_mod]

theorem and_not_0xff (x : Nat) : x &&& 0xFFFFFFFFFFFFFF00 = x / 256 % 2 ^ 56 * 256 := by
  have h : (0xFFFFFFFFFFFFFF00 : Nat) = (2 ^ 56 - 1) <<< 8 := by decide
  rw [h, and_shiftLeft_mask, Nat.and_pow_two_sub_one_eq_mod, Nat.shiftLeft_eq,
    Nat.shiftRight_eq_div_pow]

theorem and_not_0xf000 (x : Nat) :
    x &&& 0xFFFF0FFF = x / 65536 % 65536 * 65536 + x % 4096 := by
  have h : (0xFFFF0FFF : Nat) = ((2 ^ 16 - 1) <<< 16) ||| (2 ^ 12 - 1) := by decide
  rw [h, Nat.and_or_distrib_left, and_shiftLeft_mask, Nat.and_pow_two_sub_one_eq_mod,
    Nat.and_pow_two_sub_one_eq_mod, Nat.shiftLeft_eq, Nat.shiftRight_eq_div_pow]
  rw [or_eq_add 16 _ _ (by omega) (by omega)]

theorem and_0xF (x : Nat) : x &&& 0xF = x % 16 := by
  have h : (0xF : Nat) = 2 ^ 4 - 1 := by decide
  rw [h, Nat.and_pow_two_sub_one_eq_mod]

theorem and_0xFF00 (x : Nat) : x &&& 0xFF00 = x / 256 % 256 * 256 := by
  have h : (0xFF00 : Nat) = (2 ^ 8 - 1) <<< 8 := by decide
  rw [h, and_shiftLeft_mask, Nat.and_pow_two_sub_one_eq_mod, Nat.shiftLeft_eq,
    Nat.shiftRight_eq_div_pow]

/-! ## The wire transform and the packet codec in arithmetic form -/

theorem sampleCodec_roundTrips : WireCodec.RoundTrips sampleCodec := by
  intro rolling fixed data hr hf hd
  simp only [sampleCodec, le_bytes, of_le_bytes, List.cons_append, List.nil_append,
    List.drop_succ_cons, List.drop_zero, List.take_succ_cons, List.take_zero, and_not_0xf000]
  refine ⟨?_, ?_, ?_, ?_⟩ <;> omega

/-- The `fixed` argument of `encode_wireline` in arithmetic form. -/
theorem encode_fixed_eq_add (s : Secplus2) (c : Command) (ht : c.type < 2 ^ 16)
    (hid : s.client_id_ < 2 ^ 32) :
    encode_fixed s c = c.type / 256 * 2 ^ 32 + s.client_id_ := by
  unfold encode_fixed
  simp only [and_not_0xff, Nat.shiftLeft_eq]
  rw [or_eq_add 32 _ _ (by omega) hid]
  omega

/-- The `data` argument of `encode_wireline` in arithmetic form. -/
theorem encode_data_eq_add (c : Command) (hc : c.WellFormed) :
    encode_data c = c.byte2 * 2 ^ 24 + c.byte1 * 2 ^ 16 + c.nibble * 2 ^ 8 + c.type % 256 := by
  obtain ⟨ht, hn, h1, h2⟩ := hc
  unfold encode_data
  simp only [and_0xff, Nat.shiftLeft_eq]
  rw [or_eq_add 24 (c.byte2 * 2 ^ 24) (c.byte1 * 2 ^ 16) (by omega) (by omega),
    or_eq_add 16 (c.byte2 * 2 ^ 24 + c.byte1 * 2 ^ 16) (c.nibble * 2 ^ 8) (by omega) (by omega),
    or_eq_add 8 (c.byte2 * 2 ^ 24 + c.byte1 * 2 ^ 16 + c.nibble * 2 ^ 8) (c.type % 2 ^ 64 % 256)
      (by omega) (by omega)]
  omega

theorem decode_cmd_arith (f d : Nat) :
    (f % 2 ^ 64 / 2 ^ 24 / 256 % 16 * 256 ||| d % 2 ^ 32 % 256) % 2 ^ 16
      = f / 2 ^ 32 % 16 * 256 + d % 256 := by
  rw [or_eq_add 8 (f % 2 ^ 64 / 2 ^ 24 / 256 % 16 * 256) (d % 2 ^ 32 % 256) (by omega) (by omega)]
  omega

theorem decode_nibble_arith (d : Nat) :
    ((d % 2 ^ 32 / 65536 % 65536 * 65536 + d % 2 ^ 32 % 4096) / 2 ^ 8 % 256) % 2 ^ 8
      = d / 2 ^ 8 % 16 := by
  omega

theorem decode_byte1_arith (d : Nat) :
    ((d % 2 ^ 32 / 65536 % 65536 * 65536 + d % 2 ^ 32 % 4096) / 2 ^ 16 % 256) % 2 ^ 8
      = d / 2 ^ 16 % 256 := by
  omega

theorem decode_byte2_arith (d : Nat) :
    ((d % 2 ^ 32 / 65536 % 65536 * 65536 + d % 2 ^ 32 % 4096) / 2 ^ 24 % 256) % 2 ^ 8
      = d / 2 ^ 24 % 256 := by
  omega

theorem decode_low32_arith (f : Nat) : f % 2 ^ 64 % 2 ^ 32 = f % 2 ^ 32 := by
  omega

/-- The function `decode_packet` in arithmetic form. -/
theorem decode_packet_eq (codec : WireCodec) (tbl : CommandTable) (s : Secplus2)
    (packet : WirePacket) :
    decode_packet codec tbl s packet =
      if (codec.decode_wireline packet).2.1 % 2 ^ 32 = s.client_id_ then none
      else some
        { type := to_CommandType tbl
            ((codec.decode_wireline packet).2.1 / 2 ^ 32 % 16 * 256
              + (codec.decode_wireline packet).2.2 % 256) tbl.UNKNOWN,
          nibble := (codec.decode_wireline packet).2.2 / 2 ^ 8 % 16,
          byte1 := (codec.decode_wireline packet).2.2 / 2 ^ 16 % 256,
          byte2 := (codec.decode_wireline packet).2.2 / 2 ^ 24 % 256 } := by
  unfold decode_packet
  simp only [and_0xf00, and_0xff, and_0xFFFFFFFF, and_not_0xf000, Nat.shiftRight_eq_div_pow,
    decode_cmd_arith, decode_nibble_arith, decode_byte1_arith, decode_byte2_arith,
    decode_low32_arith]

theorem roundtrip_data_arith (d e ty nib b1 b2 : Nat)
    (h : e / 65536 % 65536 * 65536 + e % 4096 = d / 65536 % 65536 * 65536 + d % 4096)
    (hd : d = b2 * 2 ^ 24 + b1 * 2 ^ 16 + nib * 2 ^ 8 + ty % 256)
    (hn : nib < 2 ^ 8) (h1 : b1 < 2 ^ 8) (h2 : b2 < 2 ^ 8) :
    e % 256 = ty % 256 ∧ e / 2 ^ 8 % 16 = nib % 16 ∧ e / 2 ^ 16 % 256 = b1
      ∧ e / 2 ^ 24 % 256 = b2 := by
  subst hd
  refine ⟨?_, ?_, ?_, ?_⟩ <;> omega

/-- What `decode_wireline` returns on a packet made by `encode_packet`, under the
round-trip contract. -/
theorem decode_wireline_encode_packet (codec : WireCodec) (hrt : codec.RoundTrips)
    (s : Secplus2) (c : Command) (hc : c.WellFormed) (hid : s.client_id_ < 2 ^ 32)
    (hr : s.rolling_code_counter_ < 2 ^ 28) :
    (codec.decode_wireline (encode_packet codec s c)).2.1 = c.type / 256 * 2 ^ 32 + s.client_id_
      ∧ (codec.decode_wireline (encode_packet codec s c)).2.2 % 256 = c.type % 256
      ∧ (codec.decode_wireline (encode_packet codec s c)).2.2 / 2 ^ 8 % 16 = c.nibble % 16
      ∧ (codec.decode_wireline (encode_packet codec s c)).2.2 / 2 ^ 16 % 256 = c.byte1
      ∧ (codec.decode_wireline (encode_packet codec s c)).2.2 / 2 ^ 24 % 256 = c.byte2 := by
  have hf := encode_fixed_eq_add s c hc.1 hid
  have hd := encode_data_eq_add c hc
  obtain ⟨ht, hn, h1, h2⟩ := hc
  have hflt : encode_fixed s c < 2 ^ 40 := by rw [hf]; omega
  have hdlt : encode_data c < 2 ^ 32 := by rw [hd]; omega
  obtain ⟨-, e1, -, e3⟩ := hrt s.rolling_code_counter_ (encode_fixed s c) (encode_data c)
    hr hflt hdlt
  rw [and_not_0xf000, and_not_0xf000] at e3
  unfold encode_packet
  refine ⟨by rw [e1, hf], ?_⟩
  exact roundtrip_data_arith _ _ c.type c.nibble c.byte1 c.byte2 e3 hd hn h1 h2

/-! ## The claims -/

/-- C1: a byte stream fed one byte at a time from the idle initial state should give a
packet exactly on the 16th byte after the preamble `0x55 0x01 0x00`.  On the stream
`0x00 0x55 0x01 0x00` followed by only 15 bytes, `read_command` hands a packet to
`decode_packet` on the 15th byte after the preamble; byte 3 of that packet was never
written. -/
theorem read_command_stray_zero_emits_after_15_bytes :
    feed ReadStatics.init strayZeroStream =
      List.replicate 18 none ++
        [some [0x55, 0x01, 0x00, 0x00, 0xA0, 0xA1, 0xA2, 0xA3, 0xA4, 0xA5, 0xA6, 0xA7, 0xA8,
               0xA9, 0xAA, 0xAB, 0xAC, 0xAD, 0xAE]] := by
  decide

/-- C2, as stated, fails: under a round-tripping wire transform, a well-formed `Command`
with nibble `0x10` encoded under client id `0x539` and decoded under client id `0x53A`
comes back with nibble `0`. -/
theorem decode_other_client_drops_high_nibble :
    WireCodec.RoundTrips sampleCodec
      ∧ Command.WellFormed { type := 0x280, nibble := 0x10, byte1 := 1, byte2 := 1 }
      ∧ decode_packet sampleCodec sampleTable (sampleState 0x53A)
          (encode_packet sampleCodec (sampleState 0x539)
            { type := 0x280, nibble := 0x10, byte1 := 1, byte2 := 1 })
        = some { type := 0x280, nibble := 0, byte1 := 1, byte2 := 1 } := by
  refine ⟨sampleCodec_roundTrips, by decide, by decide⟩

/-- C2, amended: under a round-tripping wire transform, for every 28-bit rolling counter,
every 32-bit client id A and every well-formed `Command` whose type is an enumerator
with a 12-bit id, `decode_packet` run under a client id different from A on the packet
made by `encode_packet` under A returns a `Command` with the same type, byte1 and byte2
and with the low four bits of the nibble. -/
theorem decode_other_client_roundtrip (codec : WireCodec) (tbl : CommandTable)
    (hrt : codec.RoundTrips) (sA sB : Secplus2) (c : Command) (hc : c.WellFormed)
    (hty : c.type ∈ tbl.ids) (h12 : c.type < 2 ^ 12) (hA : sA.client_id_ < 2 ^ 32)
    (hr : sA.rolling_code_counter_ < 2 ^ 28) (hB : sB.client_id_ ≠ sA.client_id_) :
    decode_packet codec tbl sB (encode_packet codec sA c)
      = some { type := c.type, nibble := c.nibble % 16, byte1 := c.byte1, byte2 := c.byte2 } := by
  obtain ⟨e1, e2, e3, e4, e5⟩ := decode_wireline_encode_packet codec hrt sA c hc hA hr
  rw [decode_packet_eq, e1, e2, e3, e4, e5]
  have h1 : (c.type / 256 * 2 ^ 32 + sA.client_id_) % 2 ^ 32 = sA.client_id_ := by omega
  have h2 : (c.type / 256 * 2 ^ 32 + sA.client_id_) / 2 ^ 32 % 16 * 256 + c.type % 256
      = c.type := by omega
  rw [h1, h2, if_neg (fun h => hB h.symm)]
  simp [to_CommandType, hty]

/-- C2, amended, at an instance: a toggle press with nibble 2. -/
theorem decode_other_client_roundtrip_witness :
    decode_packet sampleCodec sampleTable (sampleState 0x53A)
        (encode_packet sampleCodec (sampleState 0x539)
          { type := 0x280, nibble := 2, byte1 := 1, byte2 := 1 })
      = some { type := 0x280, nibble := 2 % 16, byte1 := 1, byte2 := 1 } :=
  decode_other_client_roundtrip sampleCodec sampleTable sampleCodec_roundTrips
    (sampleState 0x539) (sampleState 0x53A) { type := 0x280, nibble := 2, byte1 := 1, byte2 := 1 }
    (by decide) (by decide) (by decide) (by decide) (by decide) (by decide)

/-- C3: `decode_packet` returns nothing exactly when the low 32 bits of the decoded fixed
field equal the configured client id; a packet made by `encode_packet` under the same
client id is such a self-echo (for a round-tripping wire transform), and a packet whose
fixed low 32 bits differ yields a `Command`, of type `UNKNOWN` when the command id is
not the id of an enumerator. -/
theorem decode_packet_none_iff_self_echo (codec : WireCodec) (tbl : CommandTable)
    (hrt : codec.RoundTrips) (s : Secplus2) (c : Command) (hc : c.WellFormed)
    (hid : s.client_id_ < 2 ^ 32) (hr : s.rolling_code_counter_ < 2 ^ 28) :
    (∀ packet, decode_packet codec tbl s packet = none ↔
        ((codec.decode_wireline packet).2.1 % 2 ^ 64) &&& 0xFFFFFFFF = s.client_id_)
      ∧ decode_packet codec tbl s (encode_packet codec s c) = none
      ∧ (∀ packet, ((codec.decode_wireline packet).2.1 % 2 ^ 64) &&& 0xFFFFFFFF ≠ s.client_id_ →
          ∃ cmd, decode_packet codec tbl s packet = some cmd
            ∧ (cmd.type ∈ tbl.ids ∨ cmd.type = tbl.UNKNOWN)
            ∧ ((((((codec.decode_wireline packet).2.1 % 2 ^ 64) >>> 24) &&& 0xf00)
                  ||| (((codec.decode_wireline packet).2.2 % 2 ^ 32) &&& 0xff)) ∉ tbl.ids →
                cmd.type = tbl.UNKNOWN)) := by
  refine ⟨?_, ?_, ?_⟩
  · intro packet
    unfold decode_packet
    by_cases h : ((codec.decode_wireline packet).2.1 % 2 ^ 64) &&& 0xFFFFFFFF = s.client_id_
    · simp [h]
    · simp [h]
  · obtain ⟨e1, -⟩ := decode_wireline_encode_packet codec hrt s c hc hid hr
    rw [decode_packet_eq, e1]
    have h1 : (c.type / 256 * 2 ^ 32 + s.client_id_) % 2 ^ 32 = s.client_id_ := by omega
    rw [if_pos h1]
  · intro packet hne
    unfold decode_packet
    simp only [if_neg hne]
    refine ⟨_, rfl, ?_, ?_⟩
    · simp only [to_CommandType]
      split
      · left; assumption
      · right; rfl
    · intro hnot
      have hlt : ((((codec.decode_wireline packet).2.1 % 2 ^ 64) >>> 24) &&& 0xf00)
          ||| (((codec.decode_wireline packet).2.2 % 2 ^ 32) &&& 0xff) < 2 ^ 16 := by
        apply Nat.or_lt_two_pow
        · exact Nat.lt_of_le_of_lt Nat.and_le_right (by decide)
        · exact Nat.lt_of_le_of_lt Nat.and_le_right (by decide)
      simp only [to_CommandType, Nat.mod_eq_of_lt hlt, if_neg hnot]

/-- C3 at an instance: the echo of a toggle press is dropped, and an all-zero packet, whose
fixed field is not the client id, gives a `Command`. -/
theorem decode_packet_none_iff_self_echo_witness :
    decode_packet sampleCodec sampleTable (sampleState 0x539)
        (encode_packet sampleCodec (sampleState 0x539)
          { type := 0x280, nibble := 2, byte1 := 1, byte2 := 1 }) = none
      ∧ decode_packet sampleCodec sampleTable (sampleState 0x539) (List.replicate 19 0)
          = some { type := 0, nibble := 0, byte1 := 0, byte2 := 0 } :=
  ⟨(decode_packet_none_iff_self_echo sampleCodec sampleTable sampleCodec_roundTrips
      (sampleState 0x539) { type := 0x280, nibble := 2, byte1 := 1, byte2 := 1 }
      (by decide) (by decide) (by decide)).2.1, by decide⟩

/-- C4: `increment_rolling_code_counter(delta)` sets the counter to
`(counter + delta) mod 2^28`; incrementing by 1 at `0xFFFFFFF` gives 0; the new counter
never exceeds `0xFFFFFFF`. -/
theorem increment_rolling_code_counter_wraps (s : Secplus2) (delta : Int) :
    ((increment_rolling_code_counter s delta).rolling_code_counter_ : Int)
        = ((s.rolling_code_counter_ : Int) + delta) % 2 ^ 28
      ∧ (increment_rolling_code_counter { s with rolling_code_counter_ := 0xFFFFFFF }
          1).rolling_code_counter_ = 0
      ∧ (increment_rolling_code_counter s delta).rolling_code_counter_ ≤ 0xFFFFFFF := by
  have key : ∀ (c : Nat) (d : Int),
      ((((c : Int) + d) % 2 ^ 32).toNat &&& 0xfffffff : Nat)
        = (((c : Int) + d) % 2 ^ 28).toNat := by
    intro c d
    rw [and_0xfffffff]
    omega
  refine ⟨?_, ?_, ?_⟩
  · simp only [increment_rolling_code_counter, key]
    omega
  · simp only [increment_rolling_code_counter, key]
    decide
  · simp only [increment_rolling_code_counter, key]
    omega

/-- C5: the counter should stay within 28 bits whatever writes it.
`call(SetRollingCodeCounter{0x10000000})` stores `0x10000000`, which exceeds `0xFFFFFFF`,
and the next `encode_packet` passes that value to `encode_wireline` as rolling. -/
theorem set_rolling_code_counter_exceeds_28_bits (codec : WireCodec) (tbl : CommandTable)
    (d : Defaults) (s : Secplus2) (line : Line) (c : Command) :
    (call codec tbl d s (Args.set_rolling_code_counter 0x10000000) line).1.rolling_code_counter_
        = 0x10000000
      ∧ ¬ (call codec tbl d s (Args.set_rolling_code_counter 0x10000000)
            line).1.rolling_code_counter_ ≤ 0xFFFFFFF
      ∧ encode_packet codec
          (call codec tbl d s (Args.set_rolling_code_counter 0x10000000) line).1 c
        = codec.encode_wireline 0x10000000 (encode_fixed s c) (encode_data c) := by
  refine ⟨rfl, by simp [call, set_rolling_code_counter], rfl⟩

/-- C6: for a well-formed `Command`, `encode_packet` calls the wire transform with the
current rolling counter, `fixed = ((type & ~0xFF) << 24) | client_id` and
`data = (byte2 << 24) | (byte1 << 16) | (nibble << 8) | (type & 0xFF)`; once the client
id has been set through `set_client_id`, the low 32 bits of fixed are the client id. -/
theorem encode_packet_arguments (codec : WireCodec) (s : Secplus2) (c : Command)
    (client_id : Nat) (hc : c.WellFormed) :
    encode_packet codec s c
        = codec.encode_wireline s.rolling_code_counter_
            (((c.type &&& 0xFF00) <<< 24) ||| s.client_id_)
            ((c.byte2 <<< 24) ||| (c.byte1 <<< 16) ||| (c.nibble <<< 8) ||| (c.type &&& 0xFF))
      ∧ (set_client_id s client_id).client_id_ < 2 ^ 32
      ∧ encode_fixed (set_client_id s client_id) c &&& 0xFFFFFFFF
          = (set_client_id s client_id).client_id_ := by
  have hd := encode_data_eq_add c hc
  obtain ⟨ht, hn, h1, h2⟩ := hc
  refine ⟨?_, ?_, ?_⟩
  · have hfix : encode_fixed s c = ((c.type &&& 0xFF00) <<< 24) ||| s.client_id_ := by
      unfold encode_fixed
      simp only [and_not_0xff, and_0xFF00, Nat.shiftLeft_eq]
      congr 1
      omega
    have hdata : encode_data c
        = (c.byte2 <<< 24) ||| (c.byte1 <<< 16) ||| (c.nibble <<< 8) ||| (c.type &&& 0xFF) := by
      have hlt : encode_data c < 2 ^ 32 := by rw [hd]; omega
      unfold encode_data at hlt ⊢
      have hm : c.type % 2 ^ 64 = c.type := by omega
      rw [hm] at hlt ⊢
      exact Nat.mod_eq_of_lt (by
        apply Nat.or_lt_two_pow
        · apply Nat.or_lt_two_pow
          · apply Nat.or_lt_two_pow
            · rw [Nat.shiftLeft_eq]; omega
            · rw [Nat.shiftLeft_eq]; omega
          · rw [Nat.shiftLeft_eq]; omega
        · rw [and_0xff]; omega)
    unfold encode_packet
    rw [hfix, hdata]
  · simp only [set_client_id, and_0xFFFFFFFF]
    omega
  · unfold encode_fixed
    simp only [set_client_id, and_0xFFFFFFFF, and_not_0xff, Nat.shiftLeft_eq]
    rw [or_eq_add 32 _ _ (by omega) (by omega)]
    omega

/-- C6 at an instance. -/
theorem encode_packet_arguments_witness :
    Command.WellFormed { type := 0x280, nibble := 2, byte1 := 1, byte2 := 1 }
      ∧ encode_fixed (set_client_id (sampleState 0) 0x1200000539)
          { type := 0x280, nibble := 2, byte1 := 1, byte2 := 1 } &&& 0xFFFFFFFF
        = (set_client_id (sampleState 0) 0x1200000539).client_id_ :=
  ⟨by decide, (encode_packet_arguments sampleCodec (sampleState 0)
      { type := 0x280, nibble := 2, byte1 := 1, byte2 := 1 } 0x1200000539 (by decide)).2.2⟩

/-- C7: for a packet that is not a self-echo, with fixed and data the outputs of the wire
transform, `decode_packet` returns type `to_CommandType(((fixed >> 24) & 0xF00) |
(data & 0xFF))` with fallback `UNKNOWN`, nibble `(data >> 8) & 0xFF` taken after
clearing bits 12..15 of data, hence at most 15 and equal to bits 8..11 of data, byte1
`(data >> 16) & 0xFF` and byte2 `(data >> 24) & 0xFF`; replacing the rolling output of
the wire transform by any other value gives the same `Command`. -/
theorem decode_packet_fields (codec : WireCodec) (tbl : CommandTable) (s : Secplus2)
    (packet : WirePacket) (rolling : Nat)
    (hne : ((codec.decode_wireline packet).2.1 % 2 ^ 64) &&& 0xFFFFFFFF ≠ s.client_id_) :
    ∃ cmd, decode_packet codec tbl s packet = some cmd
      ∧ cmd.type = to_CommandType tbl
          (((((codec.decode_wireline packet).2.1 % 2 ^ 64) >>> 24) &&& 0xF00)
            ||| (((codec.decode_wireline packet).2.2 % 2 ^ 32) &&& 0xFF)) tbl.UNKNOWN
      ∧ cmd.nibble
          = ((((codec.decode_wireline packet).2.2 % 2 ^ 32) &&& 0xFFFF0FFF) >>> 8) &&& 0xFF
      ∧ cmd.nibble ≤ 15
      ∧ cmd.nibble = (((codec.decode_wireline packet).2.2 % 2 ^ 32) >>> 8) &&& 0xF
      ∧ cmd.byte1 = (((codec.decode_wireline packet).2.2 % 2 ^ 32) >>> 16) &&& 0xFF
      ∧ cmd.byte2 = (((codec.decode_wireline packet).2.2 % 2 ^ 32) >>> 24) &&& 0xFF
      ∧ decode_packet
          { codec with decode_wireline := fun p => (rolling, (codec.decode_wireline p).2) }
          tbl s packet = some cmd := by
  have hlt : ((((codec.decode_wireline packet).2.1 % 2 ^ 64) >>> 24) &&& 0xf00)
      ||| (((codec.decode_wireline packet).2.2 % 2 ^ 32) &&& 0xff) < 2 ^ 16 := by
    apply Nat.or_lt_two_pow
    · exact Nat.lt_of_le_of_lt Nat.and_le_right (by decide)
    · exact Nat.lt_of_le_of_lt Nat.and_le_right (by decide)
  unfold decode_packet
  simp only [if_neg hne]
  refine ⟨_, rfl, ?_, ?_, ?_, ?_, ?_, ?_, rfl⟩
  · simp only [Nat.mod_eq_of_lt hlt]
  · simp only [and_0xff, and_not_0xf000, Nat.shiftRight_eq_div_pow]
    omega
  · simp only [and_0xff, and_not_0xf000, Nat.shiftRight_eq_div_pow]
    omega
  · simp only [and_0xff, and_0xF, and_not_0xf000, Nat.shiftRight_eq_div_pow]
    omega
  · simp only [and_0xff, and_not_0xf000, Nat.shiftRight_eq_div_pow]
    omega
  · simp only [and_0xff, and_not_0xf000, Nat.shiftRight_eq_div_pow]
    omega

/-- C7 at an instance: a packet whose data field `0x0201F681` carries parity bits `0xF`
decodes to nibble 6. -/
theorem decode_packet_fields_witness :
    decode_packet sampleCodec sampleTable (sampleState 0x539)
        [0x55, 0x01, 0x00, 0, 0, 0, 0, 0x3A, 0x05, 0, 0, 0x00, 0x81, 0xF6, 0x01, 0x02, 0, 0, 0]
      = some { type := 0x081, nibble := 6, byte1 := 1, byte2 := 2 } := by
  obtain ⟨cmd, h, -⟩ := decode_packet_fields sampleCodec sampleTable (sampleState 0x539)
    [0x55, 0x01, 0x00, 0, 0, 0, 0, 0x3A, 0x05, 0, 0, 0x00, 0x81, 0xF6, 0x01, 0x02, 0, 0, 0]
    0 (by decide)
  rw [h]
  exact h.symm.trans (by decide)

/-- C8: if a packet is pending when `send_command(command, increment)` is called, the
transmit buffer and the rolling counter are left as they were, and a packet written to
the line during the call is the pending one. -/
theorem send_command_pending_keeps_buffer (codec : WireCodec) (s : Secplus2)
    (command : Command) (increment : Bool) (line : Line) (h : s.transmit_pending_ = true) :
    (send_command codec s command increment line).1.tx_packet_ = s.tx_packet_
      ∧ (send_command codec s command increment line).1.rolling_code_counter_
          = s.rolling_code_counter_
      ∧ ∀ packet, Effect.serial_write packet ∈ (send_command codec s command increment line).2 →
          packet = s.tx_packet_ := by
  unfold send_command transmit_packet
  cases hb : line.rx_samples.any id
  · simp [h, OnceCallbacks.fire]
  · simp only [h, Bool.not_true, Bool.false_eq_true, if_false, if_true]
    split <;> simp

/-- C8 at an instance: a pending toggle press; a light command sent on a clear line
leaves the buffer alone and the packet written is the pending one. -/
theorem send_command_pending_keeps_buffer_witness :
    (send_command sampleCodec
        { sampleState 0x539 with transmit_pending_ := true, transmit_pending_start_ := 10 }
        { type := 0x281, nibble := 1, byte1 := 0, byte2 := 0 } true (clearLine 20)).1.tx_packet_
      = List.replicate PACKET_LENGTH 0 :=
  (send_command_pending_keeps_buffer sampleCodec
    { sampleState 0x539 with transmit_pending_ := true, transmit_pending_start_ := 10 }
    { type := 0x281, nibble := 1, byte1 := 0, byte2 := 0 } true (clearLine 20) rfl).1

/-- C9: if no packet is pending when `send_command(command, increment)` is called, the
transmit buffer becomes the encoding of the command under the counter held before the
call, and the counter becomes `(old + 1) & 0xFFFFFFF` if `increment` is set and stays as
it was otherwise, whatever the line does. -/
theorem send_command_idle_encodes (codec : WireCodec) (s : Secplus2) (command : Command)
    (increment : Bool) (line : Line) (h : s.transmit_pending_ = false) :
    (send_command codec s command increment line).1.tx_packet_ = encode_packet codec s command
      ∧ (send_command codec s command increment line).1.rolling_code_counter_
          = if increment = true then (s.rolling_code_counter_ + 1) &&& 0xFFFFFFF
            else s.rolling_code_counter_ := by
  have key : ((((s.rolling_code_counter_ : Int) + 1) % 2 ^ 32).toNat &&& 0xfffffff : Nat)
      = (s.rolling_code_counter_ + 1) &&& 0xFFFFFFF := by
    rw [and_0xfffffff, and_0xfffffff]
    omega
  unfold send_command transmit_packet
  cases increment
  · cases hb : line.rx_samples.any id <;> simp [h, encode_packet]
  · cases hb : line.rx_samples.any id <;>
      simp [h, encode_packet, increment_rolling_code_counter, increment_default_delta] <;>
      simpa using key

/-- C9 at an instance: the counter `0xFFFFFFF` wraps to 0 on a colliding send. -/
theorem send_command_idle_encodes_witness :
    (send_command sampleCodec { sampleState 0x539 with rolling_code_counter_ := 0xFFFFFFF }
        { type := 0x281, nibble := 1, byte1 := 0, byte2 := 0 } true
        (busyLine 20)).1.rolling_code_counter_
      = if true = true then (0xFFFFFFF + 1) &&& 0xFFFFFFF else 0xFFFFFFF :=
  (send_command_idle_encodes sampleCodec
    { sampleState 0x539 with rolling_code_counter_ := 0xFFFFFFF }
    { type := 0x281, nibble := 1, byte1 := 0, byte2 := 0 } true (busyLine 20) rfl).2

/-- C10: an `on_sent` callback should be invoked only by the transmit that writes the
packet of its own command, and never for a dropped command.  A toggle press with
callback 1 sent on a busy line stays pending; a light command with callback 2 sent next
on a clear line is dropped, the packet written is that of the toggle press, and both
callback 1 and callback 2 are invoked. -/
theorem dropped_command_on_sent_is_invoked :
    (send_command_on_sent sampleCodec (sampleState 0x539)
        { type := 0x280, nibble := 2, byte1 := 1, byte2 := 1 } false 1 (busyLine 10)).2 = []
      ∧ (send_command_on_sent sampleCodec
          (send_command_on_sent sampleCodec (sampleState 0x539)
            { type := 0x280, nibble := 2, byte1 := 1, byte2 := 1 } false 1 (busyLine 10)).1
          { type := 0x281, nibble := 1, byte1 := 0, byte2 := 0 } true 2 (clearLine 20)).2
        = [Effect.digital_write true, Effect.digital_write false,
           Effect.serial_write (encode_packet sampleCodec (sampleState 0x539)
             { type := 0x280, nibble := 2, byte1 := 1, byte2 := 1 }),
           Effect.on_sent 1, Effect.on_sent 2]
      ∧ encode_packet sampleCodec (sampleState 0x539)
            { type := 0x281, nibble := 1, byte1 := 0, byte2 := 0 }
          ≠ encode_packet sampleCodec (sampleState 0x539)
            { type := 0x280, nibble := 2, byte1 := 1, byte2 := 1 } := by
  refine ⟨by decide, by decide, by decide⟩


/-- What `transmit_packet` does when a sample of the sensing window is active. -/
theorem transmit_packet_active_line (s : Secplus2) (line : Line)
    (h : line.rx_samples.any id = true) :
    (transmit_packet s line).2.1 = false
      ∧ (transmit_packet s line).2.2 = []
      ∧ (transmit_packet s line).1.transmit_pending_ = true
      ∧ (transmit_packet s line).1.tx_packet_ = s.tx_packet_
      ∧ (transmit_packet s line).1.transmit_pending_start_
          = (if s.transmit_pending_ = false then line.millis % 2 ^ 32
             else if (line.millis % 2 ^ 32 + 2 ^ 32 - s.transmit_pending_start_) % 2 ^ 32 < 5000
               then s.transmit_pending_start_
             else 0) := by
  unfold transmit_packet
  simp only [h, if_true]
  cases hp : s.transmit_pending_
  · simp
  · simp only [Bool.not_true, Bool.false_eq_true, if_false]
    split <;> simp [hp]

/-- C11: when `transmit_packet` samples an active receive line it returns false, drives no
pin and writes no byte, leaves the packet pending and the transmit buffer as it was; the
deferral start becomes the current `millis()` if nothing was pending, is kept if a packet
was pending and the `uint32_t` difference `millis() - transmit_pending_start_` is below
5000, and becomes 0 if that difference is 5000 or more. -/
theorem transmit_packet_collision (s : Secplus2) (line : Line)
    (h : line.rx_samples.any id = true) :
    (transmit_packet s line).2.1 = false
      ∧ (transmit_packet s line).2.2 = []
      ∧ (transmit_packet s line).1.transmit_pending_ = true
      ∧ (transmit_packet s line).1.tx_packet_ = s.tx_packet_
      ∧ (transmit_packet s line).1.transmit_pending_start_
          = (if s.transmit_pending_ = false then line.millis % 2 ^ 32
             else if (line.millis % 2 ^ 32 + 2 ^ 32 - s.transmit_pending_start_) % 2 ^ 32 < 5000
               then s.transmit_pending_start_
             else 0) :=
  transmit_packet_active_line s line h

/-- C11 at instances: a packet pending since 1000 ms keeps its deferral start at 5999 ms
and loses it at 6000 ms, an elapsed time of exactly 5000 ms. -/
theorem transmit_packet_collision_witness :
    (transmit_packet
        { sampleState 0x539 with transmit_pending_ := true, transmit_pending_start_ := 1000 }
        (busyLine 5999)).1.transmit_pending_start_ = 1000
      ∧ (transmit_packet
          { sampleState 0x539 with transmit_pending_ := true, transmit_pending_start_ := 1000 }
          (busyLine 6000)).1.transmit_pending_start_ = 0 :=
  ⟨((transmit_packet_collision
      { sampleState 0x539 with transmit_pending_ := true, transmit_pending_start_ := 1000 }
      (busyLine 5999) rfl).2.2.2.2).trans (by decide),
   ((transmit_packet_collision
      { sampleState 0x539 with transmit_pending_ := true, transmit_pending_start_ := 1000 }
      (busyLine 6000) rfl).2.2.2.2).trans (by decide)⟩

/-- A list sorted in time maps, under a threshold test, to a block of one value followed
by a block of the other. -/
theorem map_threshold_sorted (c a b : Nat) :
    ∀ ts : List Nat, ts.Pairwise (· ≤ ·) →
      ∃ k, k ≤ ts.length ∧
        ts.map (fun t => if t < c then a else b)
          = List.replicate k a ++ List.replicate (ts.length - k) b := by
  intro ts
  induction ts with
  | nil => intro _; exact ⟨0, by simp⟩
  | cons t rest ih =>
    intro hs
    rw [List.pairwise_cons] at hs
    by_cases ht : t < c
    · obtain ⟨k, hk, e⟩ := ih hs.2
      refine ⟨k + 1, by simp; omega, ?_⟩
      simp only [List.map_cons, if_pos ht, e, List.replicate_succ, List.cons_append,
        List.length_cons, Nat.add_sub_add_right]
    · refine ⟨0, by simp, ?_⟩
      have hall : ∀ u ∈ rest, ¬ u < c := fun u hu => by
        have := hs.1 u hu
        omega
      have hrest : rest.map (fun t => if t < c then a else b) = List.replicate rest.length b := by
        rw [List.eq_replicate_iff]
        refine ⟨by simp, ?_⟩
        intro x hx
        rw [List.mem_map] at hx
        obtain ⟨u, hu, rfl⟩ := hx
        simp [hall u hu]
      simp only [List.map_cons, if_neg ht, hrest, List.replicate_zero, List.nil_append,
        List.length_cons, Nat.sub_zero, List.replicate_succ]

/-- Colliding attempts on a pending packet whose deferral began at the time `t0`, when
`millis()` read `t0 % 2^32`: after each attempt the packet is still pending, the buffer
is untouched and the deferral start is as recorded while fewer than 5000 ms have passed,
and 0 from then on. -/
theorem transmit_attempts_busy (t0 : Nat) :
    ∀ (ls : List Line) (x : Secplus2) (tprev : Nat),
      x.transmit_pending_ = true → t0 ≤ tprev →
      x.transmit_pending_start_ = (if tprev < t0 + 5000 then t0 % 2 ^ 32 else 0) →
      (∀ l ∈ ls, l.rx_samples.any id = true ∧ l.millis < t0 + 2 ^ 32) →
      (tprev :: ls.map Line.millis).Pairwise (· ≤ ·) →
      (transmit_attempts x ls).map
          (fun y => (y.transmit_pending_, y.transmit_pending_start_, y.tx_packet_))
        = ls.map
            (fun l => (true, (if l.millis < t0 + 5000 then t0 % 2 ^ 32 else 0), x.tx_packet_)) := by
  intro ls
  induction ls with
  | nil => intro x tprev _ _ _ _ _; rfl
  | cons l rest ih =>
    intro x tprev hp hle hst hall hsorted
    have hl := hall l (List.mem_cons_self _ _)
    rw [List.map_cons, List.pairwise_cons] at hsorted
    have hlt : tprev ≤ l.millis := hsorted.1 l.millis (List.mem_cons_self _ _)
    obtain ⟨-, -, c3, c4, c5⟩ := transmit_packet_active_line x l hl.1
    have hstart : (transmit_packet x l).1.transmit_pending_start_
        = (if l.millis < t0 + 5000 then t0 % 2 ^ 32 else 0) := by
      rw [c5, hst]
      simp only [hp, Bool.true_eq_false, if_false]
      by_cases h1 : tprev < t0 + 5000
      · simp only [if_pos h1]
        by_cases h2 : l.millis < t0 + 5000
        · have : (l.millis % 2 ^ 32 + 2 ^ 32 - t0 % 2 ^ 32) % 2 ^ 32 < 5000 := by omega
          simp only [if_pos this, if_pos h2]
        · have : ¬ (l.millis % 2 ^ 32 + 2 ^ 32 - t0 % 2 ^ 32) % 2 ^ 32 < 5000 := by omega
          simp only [if_neg this, if_neg h2]
      · have h2 : ¬ l.millis < t0 + 5000 := by omega
        simp only [if_neg h1, if_neg h2]
        split <;> rfl
    have ih' := ih (transmit_packet x l).1 l.millis c3 (by omega) hstart
      (fun m hm => hall m (List.mem_cons_of_mem _ hm)) hsorted.2
    simp only [transmit_attempts, List.map_cons, ih', c3, c4, hstart]

/-- C12: with the line active on every attempt, the deferral marker should turn to the
not-connected value 0 once, and not before 5 seconds of deferral.  When the packet
becomes pending at a moment `millis()` reads 0 (the 32-bit millisecond clock wraps at
`2^32` ms), `transmit_packet` records 0 as the deferral start, which is the very value
the code uses as the not-connected marker: the marker is 0 from the first collision on,
with no deferral time elapsed, and it is 0 one second and six seconds later alike, so no
transition to 0 takes place after 5 seconds.  This holds from the fresh object and from
an object whose marker held another value before.  A deferral that starts at 1 ms keeps
its start one second later and loses it five seconds later. -/
theorem deferral_marker_zero_from_start :
    (transmit_attempts { sampleState 0x539 with transmit_pending_start_ := 7 }
        [busyLine 4294967296, busyLine 4294968296, busyLine 4294973296]).map
        (fun y => (y.transmit_pending_, y.transmit_pending_start_))
      = [(true, 0), (true, 0), (true, 0)]
      ∧ (transmit_attempts (sampleState 0x539) [busyLine 0, busyLine 1000, busyLine 6000]).map
          (fun y => (y.transmit_pending_, y.transmit_pending_start_))
        = [(true, 0), (true, 0), (true, 0)]
      ∧ (transmit_attempts (sampleState 0x539) [busyLine 1, busyLine 1001, busyLine 5001]).map
          (fun y => (y.transmit_pending_, y.transmit_pending_start_))
        = [(true, 1), (true, 1), (true, 0)] := by
  refine ⟨by decide, by decide, by decide⟩

/-- A run whose first colliding attempt, at time `t0`, happens when `millis()` does not
read 0, and whose later attempts, at non-decreasing times less than `2^32` ms after
`t0`, all find the line active.  After each attempt the packet is pending, the buffer is
unchanged, and the deferral marker is the recorded start at every attempt made before
`t0 + 5000` and 0 at every attempt made at or after `t0 + 5000`: the markers are a block
of the start, which is not 0, followed by a block of 0. -/
theorem deferral_marker_cleared_once (s : Secplus2) (l0 : Line) (ls : List Line)
    (hs : s.transmit_pending_ = false)
    (hall : ∀ l ∈ l0 :: ls, l.rx_samples.any id = true ∧ l.millis < l0.millis + 2 ^ 32)
    (hsorted : ((l0 :: ls).map Line.millis).Pairwise (· ≤ ·))
    (h0 : l0.millis % 2 ^ 32 ≠ 0) :
    (transmit_attempts s (l0 :: ls)).map
          (fun y => (y.transmit_pending_, y.transmit_pending_start_, y.tx_packet_))
        = (l0 :: ls).map
            (fun l => (true, (if l.millis < l0.millis + 5000 then l0.millis % 2 ^ 32 else 0),
              s.tx_packet_))
      ∧ ∃ k, 1 ≤ k ∧ k ≤ ls.length + 1 ∧
          (transmit_attempts s (l0 :: ls)).map (fun y => y.transmit_pending_start_)
            = List.replicate k (l0.millis % 2 ^ 32) ++ List.replicate (ls.length + 1 - k) 0
          ∧ 0 ∉ List.replicate k (l0.millis % 2 ^ 32) := by
  have hl0 := hall l0 (List.mem_cons_self _ _)
  obtain ⟨-, -, c3, c4, c5⟩ := transmit_packet_active_line s l0 hl0.1
  simp only [hs, if_true] at c5
  have hlt : l0.millis < l0.millis + 5000 := by omega
  have hsorted' := hsorted
  rw [List.map_cons, List.pairwise_cons] at hsorted'
  have hrest := transmit_attempts_busy l0.millis ls (transmit_packet s l0).1 l0.millis
    c3 (Nat.le_refl _) (by rw [c5, if_pos hlt])
    (fun m hm => hall m (List.mem_cons_of_mem _ hm)) hsorted
  have hfull : (transmit_attempts s (l0 :: ls)).map
        (fun y => (y.transmit_pending_, y.transmit_pending_start_, y.tx_packet_))
      = (l0 :: ls).map
          (fun l => (true, (if l.millis < l0.millis + 5000 then l0.millis % 2 ^ 32 else 0),
            s.tx_packet_)) := by
    simp only [transmit_attempts, List.map_cons, hrest, c3, c4, c5, if_pos hlt]
  refine ⟨hfull, ?_⟩
  have hmark : (transmit_attempts s (l0 :: ls)).map (fun y => y.transmit_pending_start_)
      = (l0 :: ls).map
          (fun l => if l.millis < l0.millis + 5000 then l0.millis % 2 ^ 32 else 0) := by
    have := congrArg (List.map (fun p : Bool × Nat × WirePacket => p.2.1)) hfull
    simpa [List.map_map, Function.comp] using this
  obtain ⟨k, hk, e⟩ := map_threshold_sorted (l0.millis + 5000) (l0.millis % 2 ^ 32) 0
    (ls.map Line.millis) hsorted'.2
  rw [List.map_map, List.length_map] at e
  rw [List.length_map] at hk
  refine ⟨k + 1, by omega, by omega, ?_, ?_⟩
  swap
  · intro hmem
    exact h0 (List.eq_of_mem_replicate hmem).symm
  rw [hmark, List.map_cons, if_pos hlt]
  have e' : ls.map (fun l => if l.millis < l0.millis + 5000 then l0.millis % 2 ^ 32 else 0)
      = List.replicate k (l0.millis % 2 ^ 32) ++ List.replicate (ls.length - k) 0 := e
  rw [e', List.replicate_succ, List.cons_append, Nat.add_sub_add_right]

/-- An instance of `deferral_marker_cleared_once`: deferral from 100 ms on; the marker is
kept at 3000 ms and 5099 ms and is 0 at 5100 ms and 9000 ms. -/
theorem deferral_marker_cleared_once_witness :
    (transmit_attempts (sampleState 0x539)
        [busyLine 100, busyLine 3000, busyLine 5099, busyLine 5100, busyLine 9000]).map
        (fun y => (y.transmit_pending_, y.transmit_pending_start_, y.tx_packet_))
      = [busyLine 100, busyLine 3000, busyLine 5099, busyLine 5100, busyLine 9000].map
          (fun l => (true, (if l.millis < (busyLine 100).millis + 5000 then
            (busyLine 100).millis % 2 ^ 32 else 0), (sampleState 0x539).tx_packet_)) :=
  (deferral_marker_cleared_once (sampleState 0x539) (busyLine 100)
    [busyLine 3000, busyLine 5099, busyLine 5100, busyLine 9000] rfl (by decide) (by decide)
    (by decide)).1

/-- C14: a sync attempt calls `send_command` at most once and depends on the two
observables only: it sends `GET_STATUS` and returns `RETRY` if the door state is unknown,
else sends `GET_OPENINGS` and returns `RETRY` if openings is 0, else sends nothing,
leaves the object as it was and returns `DONE`; the object and the effects it leaves are
those of that one `send_command`.  It is `DONE` exactly when the door state is known and
openings is not 0.  When the attempts find an unknown door, then a known door with
openings 0, then openings not 0, the run is `send_command(GET_STATUS)`, then
`send_command(GET_OPENINGS)` on the object the first left, then `DONE` with nothing
sent, and `sync_failed` stays false; with nothing pending and clear lines exactly two
packets are written, the encodings of `GET_STATUS` and of `GET_OPENINGS`. -/
theorem sync_step_requests (codec : WireCodec) (tbl : CommandTable) (d : Defaults)
    (g : RATGDOComponent) (s : Secplus2) (line l1 l2 l3 : Line) (rest : List Observation) :
    (sync_step codec tbl d g s line).requests
        = (if g.door_state = DoorState.UNKNOWN then [Command.of_type d tbl.GET_STATUS]
           else if g.openings = 0 then [Command.of_type d tbl.GET_OPENINGS]
           else [])
      ∧ (sync_step codec tbl d g s line).result
          = (if g.door_state = DoorState.UNKNOWN ∨ g.openings = 0 then RetryResult.RETRY
             else RetryResult.DONE)
      ∧ ((sync_step codec tbl d g s line).result = RetryResult.DONE
          ↔ g.door_state ≠ DoorState.UNKNOWN ∧ g.openings ≠ 0)
      ∧ (sync_step codec tbl d g s line).requests.length ≤ 1
      ∧ (sync_step codec tbl d g s line).ratgdo = g
      ∧ (sync codec tbl d false s
            ({ door_state := DoorState.UNKNOWN, openings := 0, line := l1 }
              :: { door_state := DoorState.OPEN, openings := 0, line := l2 }
              :: { door_state := DoorState.OPEN, openings := 3, line := l3 } :: rest)).map
            (fun a => (a.1, a.2.result, a.2.requests, a.2.ratgdo.sync_failed))
          = [(9, RetryResult.RETRY, [Command.of_type d tbl.GET_STATUS], false),
             (8, RetryResult.RETRY, [Command.of_type d tbl.GET_OPENINGS], false),
             (7, RetryResult.DONE, [], false)]
      ∧ (sync_step codec tbl d g s line).sec
          = (if g.door_state = DoorState.UNKNOWN then
               (send_command codec s (Command.of_type d tbl.GET_STATUS) d.increment line).1
             else if g.openings = 0 then
               (send_command codec s (Command.of_type d tbl.GET_OPENINGS) d.increment line).1
             else s)
      ∧ (sync_step codec tbl d g s line).effects
          = (if g.door_state = DoorState.UNKNOWN then
               (send_command codec s (Command.of_type d tbl.GET_STATUS) d.increment line).2
             else if g.openings = 0 then
               (send_command codec s (Command.of_type d tbl.GET_OPENINGS) d.increment line).2
             else [])
      ∧ (sync codec tbl d false s
            ({ door_state := DoorState.UNKNOWN, openings := 0, line := l1 }
              :: { door_state := DoorState.OPEN, openings := 0, line := l2 }
              :: { door_state := DoorState.OPEN, openings := 3, line := l3 } :: rest)).map
            (fun a => (a.2.sec, a.2.effects))
          = [((send_command codec s (Command.of_type d tbl.GET_STATUS) d.increment l1).1,
              (send_command codec s (Command.of_type d tbl.GET_STATUS) d.increment l1).2),
             ((send_command codec
                (send_command codec s (Command.of_type d tbl.GET_STATUS) d.increment l1).1
                (Command.of_type d tbl.GET_OPENINGS) d.increment l2).1,
              (send_command codec
                (send_command codec s (Command.of_type d tbl.GET_STATUS) d.increment l1).1
                (Command.of_type d tbl.GET_OPENINGS) d.increment l2).2),
             ((send_command codec
                (send_command codec s (Command.of_type d tbl.GET_STATUS) d.increment l1).1
                (Command.of_type d tbl.GET_OPENINGS) d.increment l2).1, [])]
      ∧ (sync sampleCodec sampleTable sampleDefaults false (sampleState 0x539)
            [{ door_state := DoorState.UNKNOWN, openings := 0, line := clearLine 500 },
             { door_state := DoorState.OPEN, openings := 0, line := clearLine 1500 },
             { door_state := DoorState.OPEN, openings := 3, line := clearLine 2500 }]).map
            (fun a => a.2.effects)
          = [[Effect.digital_write true, Effect.digital_write false,
              Effect.serial_write (encode_packet sampleCodec (sampleState 0x539)
                { type := 0x080, nibble := 0, byte1 := 0, byte2 := 0 })],
             [Effect.digital_write true, Effect.digital_write false,
              Effect.serial_write (encode_packet sampleCodec
                { sampleState 0x539 with rolling_code_counter_ := 1 }
                { type := 0x48b, nibble := 0, byte1 := 0, byte2 := 0 })],
             []] := by
  refine ⟨?_, ?_, ?_, ?_, ?_, ?_, ?_, ?_, ?_, ?_⟩
  · unfold sync_step; split <;> [rfl; (split <;> rfl)]
  · unfold sync_step
    by_cases h1 : g.door_state = DoorState.UNKNOWN
    · simp [h1]
    · by_cases h2 : g.openings = 0 <;> simp [h1, h2]
  · unfold sync_step
    by_cases h1 : g.door_state = DoorState.UNKNOWN
    · simp [h1]
    · by_cases h2 : g.openings = 0 <;> simp [h1, h2]
  · unfold sync_step
    by_cases h1 : g.door_state = DoorState.UNKNOWN
    · simp [h1]
    · by_cases h2 : g.openings = 0 <;> simp [h1, h2]
  · unfold sync_step; split <;> [rfl; (split <;> rfl)]
  · simp [sync, set_retry, sync_retry, sync_step, MAX_ATTEMPTS]
  · unfold sync_step; split <;> [rfl; (split <;> rfl)]
  · unfold sync_step; split <;> [rfl; (split <;> rfl)]
  · simp [sync, set_retry, sync_retry, sync_step, MAX_ATTEMPTS]
  · decide

/-- The indices that `set_retry` passes to the callback count down from
`max_attempts - 1`. -/
theorem set_retry_indices (codec : WireCodec) (tbl : CommandTable) (d : Defaults) :
    ∀ (n : Nat) (sync_failed : Bool) (s : Secplus2) (obs : List Observation),
      (set_retry codec tbl d n sync_failed s obs).map Prod.fst
        = (List.range (set_retry codec tbl d n sync_failed s obs).length).map
            (fun k => n - 1 - k) := by
  intro n
  induction n with
  | zero => intro sync_failed s obs; simp [set_retry]
  | succ n ih =>
    intro sync_failed s obs
    cases obs with
    | nil => simp [set_retry]
    | cons o rest =>
      simp only [set_retry]
      split
      · simp [List.range_succ]
      · rw [List.map_cons, List.length_cons, List.range_succ_eq_map, List.map_cons, List.map_map, ih]
        simp only [Nat.add_sub_cancel, Nat.sub_zero, List.cons.injEq, true_and]
        apply List.map_congr_left
        intro k _
        simp only [Function.comp]
        omega

/-- C15, as stated, fails: in a run of 10 attempts that all find the door state unknown,
with the indices 9 down to 0, the counter (advanced by 1 by each request) jumps by 10 at
the second attempt, the one with index 8; at the second-to-last attempt, with index 1,
it moves from 18 to 19 only. -/
theorem sync_jump_at_second_attempt :
    (sync sampleCodec sampleTable sampleDefaults false (sampleState 0x539)
        silentObservations).map (fun a => (a.1, a.2.sec.rolling_code_counter_))
      = [(9, 1), (8, 12), (7, 13), (6, 14), (5, 15), (4, 16), (3, 17), (2, 18), (1, 19),
         (0, 20)] := by
  decide

/-- C15, amended: the retry callback of `sync()` applies the counter jump of 10, masked to
28 bits, exactly when it is called with index `MAX_ATTEMPTS - 2 = 8` while the door
state is unknown; called with any other index, or with a known door state, it leaves
the counter as the sync step left it.  The scheduler passes the indices 9, 8, ... in
that order, so the attempt with index 8 is the second attempt of the run. -/
theorem sync_jump_only_at_index_8 (codec : WireCodec) (tbl : CommandTable) (d : Defaults)
    (r : Nat) (g : RATGDOComponent) (s : Secplus2) (line : Line) (sync_failed : Bool)
    (obs : List Observation) :
    (sync_retry codec tbl d r g s line).sec
        = (if r = 8 ∧ g.door_state = DoorState.UNKNOWN then
             increment_rolling_code_counter (sync_step codec tbl d g s line).sec 10
           else (sync_step codec tbl d g s line).sec)
      ∧ ((increment_rolling_code_counter (sync_step codec tbl d g s line).sec
            10).rolling_code_counter_ : Int)
          = (((sync_step codec tbl d g s line).sec.rolling_code_counter_ : Int) + 10) % 2 ^ 28
      ∧ (sync codec tbl d sync_failed s obs).map Prod.fst
          = (List.range (sync codec tbl d sync_failed s obs).length).map (fun k => 9 - k) := by
  refine ⟨?_, ?_, ?_⟩
  · unfold sync_retry
    by_cases h1 : g.door_state = DoorState.UNKNOWN
    · by_cases hr : r = 8
      · simp [sync_step, h1, hr, MAX_ATTEMPTS, MAX_CODES_WITHOUT_FLASH_WRITE]
      · simp [sync_step, h1, hr, MAX_ATTEMPTS]
    · by_cases h2 : g.openings = 0
      · simp [sync_step, h1, h2]
      · simp [sync_step, h1, h2]
  · have key : ∀ (c : Nat),
        ((((c : Int) + 10) % 2 ^ 32).toNat &&& 0xfffffff : Nat)
          = (((c : Int) + 10) % 2 ^ 28).toNat := by
      intro c
      rw [and_0xfffffff]
      omega
    simp only [increment_rolling_code_counter, key]
    omega
  · exact set_retry_indices codec tbl d MAX_ATTEMPTS sync_failed s obs

/-- C16: the retry callback of `sync()` leaves `sync_failed` true if it was, and sets it
exactly when it is called with index 0 and the step returns `RETRY`; it changes no other
observable.  With the door state unknown and openings 0 at each of the 10 attempts,
whatever the line does, `sync_failed` is false after the attempts with index 9 to 1 and
true after the attempt with index 0, which is the last. -/
theorem sync_failed_set_at_index_0 (codec : WireCodec) (tbl : CommandTable) (d : Defaults)
    (r : Nat) (g : RATGDOComponent) (s : Secplus2) (line : Line)
    (l0 l1 l2 l3 l4 l5 l6 l7 l8 l9 : Line) (rest : List Observation) :
    (sync_retry codec tbl d r g s line).ratgdo.sync_failed
        = (g.sync_failed
            || (decide (r = 0)
                && decide ((sync_retry codec tbl d r g s line).result = RetryResult.RETRY)))
      ∧ (sync_retry codec tbl d r g s line).ratgdo.door_state = g.door_state
      ∧ (sync_retry codec tbl d r g s line).ratgdo.openings = g.openings
      ∧ (sync_retry codec tbl d r g s line).result = (sync_step codec tbl d g s line).result
      ∧ (sync codec tbl d false s
            ({ door_state := DoorState.UNKNOWN, openings := 0, line := l0 }
              :: { door_state := DoorState.UNKNOWN, openings := 0, line := l1 }
              :: { door_state := DoorState.UNKNOWN, openings := 0, line := l2 }
              :: { door_state := DoorState.UNKNOWN, openings := 0, line := l3 }
              :: { door_state := DoorState.UNKNOWN, openings := 0, line := l4 }
              :: { door_state := DoorState.UNKNOWN, openings := 0, line := l5 }
              :: { door_state := DoorState.UNKNOWN, openings := 0, line := l6 }
              :: { door_state := DoorState.UNKNOWN, openings := 0, line := l7 }
              :: { door_state := DoorState.UNKNOWN, openings := 0, line := l8 }
              :: { door_state := DoorState.UNKNOWN, openings := 0, line := l9 } :: rest)).map
            (fun a => (a.1, a.2.ratgdo.sync_failed))
          = [(9, false), (8, false), (7, false), (6, false), (5, false), (4, false),
             (3, false), (2, false), (1, false), (0, true)] := by
  refine ⟨?_, ?_, ?_, ?_, ?_⟩
  · unfold sync_retry
    by_cases h1 : g.door_state = DoorState.UNKNOWN
    · by_cases hr : r = 0 <;> simp [sync_step, h1, hr]
    · by_cases h2 : g.openings = 0
      · by_cases hr : r = 0 <;> simp [sync_step, h1, h2, hr]
      · simp [sync_step, h1, h2]
  · unfold sync_retry
    by_cases h1 : g.door_state = DoorState.UNKNOWN
    · by_cases hr : r = 0 <;> simp [sync_step, h1, hr]
    · by_cases h2 : g.openings = 0
      · by_cases hr : r = 0 <;> simp [sync_step, h1, h2, hr]
      · simp [sync_step, h1, h2]
  · unfold sync_retry
    by_cases h1 : g.door_state = DoorState.UNKNOWN
    · by_cases hr : r = 0 <;> simp [sync_step, h1, hr]
    · by_cases h2 : g.openings = 0
      · by_cases hr : r = 0 <;> simp [sync_step, h1, h2, hr]
      · simp [sync_step, h1, h2]
  · unfold sync_retry
    by_cases h1 : g.door_state = DoorState.UNKNOWN
    · simp [sync_step, h1]
    · by_cases h2 : g.openings = 0
      · simp [sync_step, h1, h2]
      · simp [sync_step, h1, h2]
  · simp [sync, set_retry, sync_retry, sync_step, MAX_ATTEMPTS]

theorem shiftRight_and_one_eq (x k : Nat) :
    (x >>> k) &&& 1 = if x.testBit k = true then 1 else 0 := by
  have h : (x >>> k) &&& 1 = (x >>> k) % 2 := by
    have h1 : (1 : Nat) = 2 ^ 1 - 1 := by decide
    rw [h1, Nat.and_pow_two_sub_one_eq_mod]
  rw [h, Nat.testBit, Nat.shiftRight_eq_div_pow]
  have h2 : 1 &&& x / 2 ^ k = (x / 2 ^ k) % 2 := by
    rw [Nat.and_comm]
    have h1 : (1 : Nat) = 2 ^ 1 - 1 := by decide
    rw [h1, Nat.and_pow_two_sub_one_eq_mod]
  rw [h2]
  rcases Nat.mod_two_eq_zero_or_one (x / 2 ^ k) with h3 | h3 <;> simp [h3]

/-- C17: for a `STATUS` command, `handle_command` makes four calls of `received`, in the
order door, light, lock, obstruction: the door state whose value is the nibble (`OPEN` to
`CLOSING` for 1 to 5, `UNKNOWN` for 0 and for every nibble above 5); light `ON` if bit 1
of byte2 is set, else `OFF`; lock `LOCKED` if bit 0 of byte2 is set, else `UNLOCKED`;
obstruction `CLEAR` if bit 6 of byte1 is set, else `OBSTRUCTED`. -/
theorem handle_command_status (tbl : CommandTable) (nibble byte1 byte2 : Nat) :
    handle_command tbl { type := tbl.STATUS, nibble := nibble, byte1 := byte1, byte2 := byte2 }
      = [Received.door_state
           (if nibble = 1 then DoorState.OPEN
            else if nibble = 2 then DoorState.CLOSED
            else if nibble = 3 then DoorState.STOPPED
            else if nibble = 4 then DoorState.OPENING
            else if nibble = 5 then DoorState.CLOSING
            else DoorState.UNKNOWN),
         Received.light_state (if byte2.testBit 1 = true then LightState.ON else LightState.OFF),
         Received.lock_state
           (if byte2.testBit 0 = true then LockState.LOCKED else LockState.UNLOCKED),
         Received.obstruction_state
           (if byte1.testBit 6 = true then ObstructionState.CLEAR
            else ObstructionState.OBSTRUCTED)] := by
  have hdoor : to_DoorState nibble DoorState.UNKNOWN
      = (if nibble = 1 then DoorState.OPEN
         else if nibble = 2 then DoorState.CLOSED
         else if nibble = 3 then DoorState.STOPPED
         else if nibble = 4 then DoorState.OPENING
         else if nibble = 5 then DoorState.CLOSING
         else DoorState.UNKNOWN) := by
    unfold to_DoorState
    by_cases h0 : nibble = 0
    · subst h0; rfl
    · simp only [if_neg h0]
  have hlight : to_LightState ((byte2 >>> 1) &&& 1) LightState.UNKNOWN
      = (if byte2.testBit 1 = true then LightState.ON else LightState.OFF) := by
    rw [shiftRight_and_one_eq]
    cases byte2.testBit 1 <;> rfl
  have hlock : to_LockState (byte2 &&& 1) LockState.UNKNOWN
      = (if byte2.testBit 0 = true then LockState.LOCKED else LockState.UNLOCKED) := by
    have := shiftRight_and_one_eq byte2 0
    rw [Nat.shiftRight_zero] at this
    rw [this]
    cases byte2.testBit 0 <;> rfl
  have hobst : to_ObstructionState ((byte1 >>> 6) &&& 1) ObstructionState.UNKNOWN
      = (if byte1.testBit 6 = true then ObstructionState.CLEAR
         else ObstructionState.OBSTRUCTED) := by
    rw [shiftRight_and_one_eq]
    cases byte1.testBit 6 <;> rfl
  unfold handle_command
  simp only [if_true, hdoor, hlight, hlock, hobst]

/-- C18: for a command that is not `STATUS`, with the ids of the named enumerators
pairwise different, `handle_command` is the reference mapping: `OPENINGS` gives one
openings call with count `byte1 * 256 + byte2` and the nibble as flag; `SET_TTC` one
time-to-close call with `byte1 * 256 + byte2` seconds; `DOOR_ACTION` one button call,
`PRESSED` if bit 0 of byte1 is 1 and `RELEASED` otherwise; `LIGHT` one light action for
the nibble (`UNKNOWN` above 2); `MOTOR_ON` motor `ON`; `MOTION` motion `DETECTED`; every
other type, `UNKNOWN`, `GET_STATUS`, `GET_OPENINGS` and `LOCK` among them, no call. -/
theorem handle_command_other (tbl : CommandTable) (cmd : Command) (hd : tbl.Distinct)
    (hc : cmd.WellFormed) (hne : cmd.type ≠ tbl.STATUS) :
    handle_command tbl cmd
        = (if cmd.type = tbl.OPENINGS then
             [Received.openings (cmd.byte1 * 256 + cmd.byte2) cmd.nibble]
           else if cmd.type = tbl.SET_TTC then
             [Received.time_to_close (cmd.byte1 * 256 + cmd.byte2)]
           else if cmd.type = tbl.DOOR_ACTION then
             [Received.button_state
               (if cmd.byte1.testBit 0 = true then ButtonState.PRESSED else ButtonState.RELEASED)]
           else if cmd.type = tbl.LIGHT then
             [Received.light_action
               (if cmd.nibble = 0 then LightAction.OFF
                else if cmd.nibble = 1 then LightAction.ON
                else if cmd.nibble = 2 then LightAction.TOGGLE
                else LightAction.UNKNOWN)]
           else if cmd.type = tbl.MOTOR_ON then [Received.motor_state MotorState.ON]
           else if cmd.type = tbl.MOTION then [Received.motion_state MotionState.DETECTED]
           else [])
      ∧ handle_command tbl { cmd with type := tbl.UNKNOWN } = []
      ∧ handle_command tbl { cmd with type := tbl.GET_STATUS } = []
      ∧ handle_command tbl { cmd with type := tbl.GET_OPENINGS } = []
      ∧ handle_command tbl { cmd with type := tbl.LOCK } = [] := by
  obtain ⟨-, -, h1, h2⟩ := hc
  have hcount : ((cmd.byte1 <<< 8) ||| cmd.byte2) % 2 ^ 16 = cmd.byte1 * 256 + cmd.byte2 := by
    rw [Nat.shiftLeft_eq, or_eq_add 8 _ _ (by omega) h2]
    omega
  have hbutton : (cmd.byte1 &&& 1 = 1) ↔ cmd.byte1.testBit 0 = true := by
    have := shiftRight_and_one_eq cmd.byte1 0
    rw [Nat.shiftRight_zero] at this
    rw [this]
    cases cmd.byte1.testBit 0 <;> simp
  have hlight : to_LightAction cmd.nibble LightAction.UNKNOWN
      = (if cmd.nibble = 0 then LightAction.OFF
         else if cmd.nibble = 1 then LightAction.ON
         else if cmd.nibble = 2 then LightAction.TOGGLE
         else LightAction.UNKNOWN) := by
    unfold to_LightAction
    by_cases h3 : cmd.nibble = 3
    · rw [h3]; rfl
    · simp only [if_neg h3]
  simp only [CommandTable.Distinct, List.nodup_cons, List.mem_cons, List.mem_singleton,
    List.not_mem_nil, not_or, or_false, List.nodup_nil, and_true] at hd
  obtain ⟨⟨u1, u2, u3, u4, u5, u6, u7, u8, u9, u10⟩, ⟨g2, g3, g4, g5, g6, g7, g8, g9, g10⟩,
    ⟨s3, s4, s5, s6, s7, s8, s9, s10⟩, ⟨k4, k5, k6, k7, k8, k9, k10⟩,
    ⟨a5, a6, a7, a8, a9, a10⟩, ⟨i6, i7, i8, i9, i10⟩, ⟨m7, m8, m9, m10⟩, ⟨n8, n9, n10⟩,
    ⟨t9, t10⟩, o10⟩ := hd
  refine ⟨?_, ?_, ?_, ?_, ?_⟩
  · unfold handle_command
    simp only [if_neg hne, hcount, hlight, hbutton]
    by_cases c1 : cmd.type = tbl.OPENINGS
    · simp [c1, Ne.symm i10, Ne.symm m10, Ne.symm a10, Ne.symm n10]
    · by_cases c2 : cmd.type = tbl.SET_TTC
      · simp [c2, Ne.symm i8, Ne.symm m8, Ne.symm a8, Ne.symm n8, t10]
      · by_cases c3 : cmd.type = tbl.DOOR_ACTION
        · simp [c3, a5, a6, a10, a8]
        · by_cases c4 : cmd.type = tbl.LIGHT
          · simp [c4, i10, i8, Ne.symm a5]
          · simp [c1, c2, c3, c4]
  · unfold handle_command
    simp [u2, u4, u5, u6, u7, u8, u10]
  · unfold handle_command
    simp [g2, g4, g5, g6, g7, g8, g10]
  · unfold handle_command
    simp [Ne.symm s9, Ne.symm a9, Ne.symm i9, Ne.symm m9, Ne.symm n9, Ne.symm t9, o10]
  · unfold handle_command
    simp [Ne.symm s3, k4, k5, k6, k7, k8, k10]

/-- C18 at an instance: an `OPENINGS` command with byte1 1 and byte2 2 reports 258
openings. -/
theorem handle_command_other_witness :
    handle_command sampleTable { type := 0x48c, nibble := 0, byte1 := 1, byte2 := 2 }
      = [Received.openings 258 0] :=
  ((handle_command_other sampleTable { type := 0x48c, nibble := 0, byte1 := 1, byte2 := 2 }
    (by unfold CommandTable.Distinct; decide) (by decide) (by decide)).1).trans (by decide)

/-- C19: a preamble interrupted by a rejected byte should not start a frame.  On the
stream `0x55 0x01 0xFF 0x00`, fed from the idle initial state, `read_command` rejects
`0xFF` and resets `byte_count`, but keeps the shift register `msg_start`, so the byte
`0x00` completes `0x550100`: the reader is then in mid-frame capture with
`byte_count = 1`, although the three bytes read last are `0x01 0xFF 0x00`. -/
theorem read_command_interrupted_preamble_starts_frame :
    (feed_state ReadStatics.init interruptedPreamble).reading_msg = true
      ∧ (feed_state ReadStatics.init interruptedPreamble).byte_count = 1
      ∧ (feed_state ReadStatics.init interruptedPreamble).msg_start = 0x550100
      ∧ (feed_state ReadStatics.init [(1, 0x55), (2, 0x01), (3, 0xFF)]).reading_msg = false
      ∧ (feed_state ReadStatics.init [(1, 0x55), (2, 0x01), (3, 0xFF)]).msg_start = 0x5501 := by
  refine ⟨by decide, by decide, by decide, by decide, by decide⟩

/-- C20: a packet handed to `decode_packet` should carry, after the preamble, the 16 bytes
that followed the preamble in the stream.  On the stream `0x00 0x55 0x01 0x00` followed
by `0xB0 .. 0xBF`, the packet is handed over after `0xBE`: its byte 3 is the stale buffer
content 0, its bytes 4 to 18 are `0xB0 .. 0xBE`, and `0xBF` is read as an idle byte. -/
theorem read_command_stray_zero_shifts_packet :
    feed ReadStatics.init strayZeroFrame =
        List.replicate 18 none ++
          [some [0x55, 0x01, 0x00, 0x00, 0xB0, 0xB1, 0xB2, 0xB3, 0xB4, 0xB5, 0xB6, 0xB7, 0xB8,
                 0xB9, 0xBA, 0xBB, 0xBC, 0xBD, 0xBE], none]
      ∧ (feed_state ReadStatics.init strayZeroFrame).reading_msg = false := by
  refine ⟨by decide, by decide⟩

theorem shift_in_arith (m b : Nat) (hb : b < 256) :
    ((((m <<< 8) % 2 ^ 32) ||| b) &&& 0xffffff) % 2 ^ 32 = m % 65536 * 256 + b := by
  have h : (0xffffff : Nat) = 2 ^ 24 - 1 := by decide
  rw [h, Nat.and_pow_two_sub_one_eq_mod, Nat.shiftLeft_eq,
    or_eq_add 8 (m * 2 ^ 8 % 2 ^ 32) b (by omega) hb]
  omega

theorem elapsed_zero (now : Nat) : ¬ (now % 2 ^ 32 + 2 ^ 32 - now % 2 ^ 32) % 2 ^ 32 > 100 := by
  omega

/-- One call of `read_command` in the idle state on one accepted byte that does not
complete the preamble. -/
theorem read_packet_idle_accept (s : ReadStatics) (now b : Nat) (hs : s.reading_msg = false)
    (hb : b = 0x55 ∨ b = 0x01 ∨ b = 0x00)
    (hne : s.msg_start % 65536 * 256 + b ≠ 0x550100) :
    read_packet s now [b]
      = ({ s with last_read := now % 2 ^ 32, msg_start := s.msg_start % 65536 * 256 + b,
                  byte_count := (s.byte_count + 1) % 2 ^ 16 }, [], none) := by
  have hb256 : b % 2 ^ 8 = b := by omega
  have hlt : b < 256 := by omega
  have hacc : ¬ (b ≠ 0x55 ∧ b ≠ 0x01 ∧ b ≠ 0x00) := by omega
  unfold read_packet
  simp only [hs, Bool.not_false, if_true, idle_loop, hb256, hacc, if_false,
    shift_in_arith _ _ hlt, if_neg hne, Bool.false_eq_true]

/-- One call of `read_command` in the idle state on the byte `0x00` that completes the
preamble. -/
theorem read_packet_idle_match (s : ReadStatics) (now : Nat) (hs : s.reading_msg = false)
    (hm : s.msg_start % 65536 = 0x5501) :
    read_packet s now [0x00]
      = ({ s with last_read := now % 2 ^ 32, msg_start := 0x550100,
                  byte_count := (s.byte_count + 1) % 2 ^ 16,
                  rx_packet := ((s.rx_packet.set 0 0x55).set 1 0x01).set 2 0x00,
                  reading_msg := true }, [], none) := by
  have hacc : ¬ ((0 : Nat) ≠ 0x55 ∧ (0 : Nat) ≠ 0x01 ∧ (0 : Nat) ≠ 0x00) := by
    decide
  have h0 : (0 : Nat) % 2 ^ 8 = 0 := by decide
  have hmatch : s.msg_start % 65536 * 256 + 0 = 0x550100 := by omega
  unfold read_packet
  simp only [hs, Bool.not_false, if_true, idle_loop, h0, hacc, if_false,
    shift_in_arith _ 0 (by decide), hmatch, frame_loop]
  have hz := elapsed_zero now
  simp only [gt_iff_lt] at hz
  simp only [gt_iff_lt, if_neg hz]

/-- The reader after a timeout, fed the preamble one byte per call: it is in mid-frame
capture from the third byte on, with `byte_count = 3`, and hands over no packet. -/
theorem feed_preamble_after_reset (s : ReadStatics) (t1 t2 t3 : Nat) :
    feed_state { s with reading_msg := false, byte_count := 0 }
        [(t1, 0x55), (t2, 0x01), (t3, 0x00)]
      = { reading_msg := true, msg_start := 0x550100, byte_count := 3,
          rx_packet := ((s.rx_packet.set 0 0x55).set 1 0x01).set 2 0x00,
          last_read := t3 % 2 ^ 32 }
      ∧ feed { s with reading_msg := false, byte_count := 0 }
          [(t1, 0x55), (t2, 0x01), (t3, 0x00)] = [none, none, none] := by
  have e1 := read_packet_idle_accept { s with reading_msg := false, byte_count := 0 } t1 0x55
    rfl (by decide) (by simp only; omega)
  have e2 := read_packet_idle_accept
    { s with reading_msg := false, byte_count := (0 + 1) % 2 ^ 16,
             last_read := t1 % 2 ^ 32, msg_start := s.msg_start % 65536 * 256 + 0x55 } t2 0x01
    rfl (by decide) (by simp only; omega)
  have e3 := read_packet_idle_match
    { s with reading_msg := false, byte_count := ((0 + 1) % 2 ^ 16 + 1) % 2 ^ 16,
             last_read := t2 % 2 ^ 32,
             msg_start := (s.msg_start % 65536 * 256 + 0x55) % 65536 * 256 + 0x01 } t3
    rfl (by simp only; omega)
  simp only at e1 e2 e3
  refine ⟨?_, ?_⟩
  · simp only [feed_state, e1, e2, e3]
    rfl
  · simp only [feed, e1, e2, e3]

/-- C21: in `loop()`, if a packet is pending the transmit is retried; if that retry finds
the line active the tick ends with the statics of the reader and the serial buffer as
they were, no effect and no dispatched command, the packet still pending.  Otherwise,
that is if nothing was pending or the pending packet was written in this tick,
`read_command` runs (and `handle_command` on a decoded command). -/
theorem loop_retries_transmit_first (codec : WireCodec) (tbl : CommandTable) (sec : Secplus2)
    (statics : ReadStatics) (line : Line) (now : Nat) (available : List Nat) :
    loop codec tbl sec statics line now available
      = (if sec.transmit_pending_ = true ∧ line.rx_samples.any id = true then
           { sec := (transmit_packet sec line).1, statics := statics, available := available,
             effects := [], received := [] }
         else if sec.transmit_pending_ = true then
           loop_read codec tbl (transmit_packet sec line).1 statics now available
             ([Effect.digital_write true, Effect.digital_write false,
               Effect.serial_write sec.tx_packet_] ++ sec.command_sent_.fire.1)
         else
           loop_read codec tbl sec statics now available [])
      ∧ (loop_read codec tbl sec statics now available []).statics
          = (read_command codec tbl sec statics now available).1
      ∧ (loop_read codec tbl sec statics now available []).available
          = (read_command codec tbl sec statics now available).2.1
      ∧ (loop codec tbl { sec with transmit_pending_ := true } statics
            { line with rx_samples := true :: line.rx_samples } now available).sec.transmit_pending_
          = true := by
  refine ⟨?_, rfl, rfl, ?_⟩
  · unfold loop
    cases hp : sec.transmit_pending_
    · simp
    · cases hb : line.rx_samples.any id
      · simp [transmit_packet, hb]
      · have h := transmit_packet_active_line sec line hb
        simp [h.1, h.2.1]
  · have h := transmit_packet_active_line { sec with transmit_pending_ := true }
      { line with rx_samples := true :: line.rx_samples } (by simp)
    unfold loop
    simp [h.1, h.2.2.1]

/-- C22: when `read_command` is called mid-frame with no byte available it returns
nothing; if the `uint32_t` difference `millis() - last_read` exceeds 100 the partial
packet is abandoned (`reading_msg = false`, `byte_count = 0`), and a preamble fed
afterwards starts a frame with `byte_count = 3`; if the difference is 100 or less the
statics, buffer and byte count included, are as they were. -/
theorem read_command_timeout (codec : WireCodec) (tbl : CommandTable) (sec : Secplus2)
    (s : ReadStatics) (now t1 t2 t3 : Nat) (h : s.reading_msg = true) :
    (read_command codec tbl sec s now []).2.2 = none
      ∧ (read_command codec tbl sec s now []).2.1 = []
      ∧ (read_command codec tbl sec s now []).1
          = (if (now % 2 ^ 32 + 2 ^ 32 - s.last_read) % 2 ^ 32 > 100 then
               { s with reading_msg := false, byte_count := 0 }
             else s)
      ∧ (feed_state { s with reading_msg := false, byte_count := 0 }
            [(t1, 0x55), (t2, 0x01), (t3, 0x00)]).reading_msg = true
      ∧ (feed_state { s with reading_msg := false, byte_count := 0 }
            [(t1, 0x55), (t2, 0x01), (t3, 0x00)]).byte_count = 3 := by
  have hr : read_packet s now []
      = ((if (now % 2 ^ 32 + 2 ^ 32 - s.last_read) % 2 ^ 32 > 100 then
            { s with reading_msg := false, byte_count := 0 }
          else s), [], none) := by
    unfold read_packet
    simp only [h, Bool.not_true, Bool.false_eq_true, if_false, if_true, frame_loop]
    split <;> rfl
  have hp := (feed_preamble_after_reset s t1 t2 t3).1
  refine ⟨?_, ?_, ?_, ?_, ?_⟩
  · simp only [read_command, hr, Option.bind]
  · simp only [read_command, hr]
  · simp only [read_command, hr]
  · rw [hp]
  · rw [hp]

/-- C22 at instances: last byte read at 1000 ms; a call at 1100 ms, exactly 100 ms later,
leaves the reader mid-frame, a call at 1101 ms abandons the partial packet. -/
theorem read_command_timeout_witness :
    (read_command sampleCodec sampleTable (sampleState 0x539) midFrameStatics 1100 []).1
        = midFrameStatics
      ∧ (read_command sampleCodec sampleTable (sampleState 0x539) midFrameStatics 1101 []).1
        = { midFrameStatics with reading_msg := false, byte_count := 0 } :=
  ⟨((read_command_timeout sampleCodec sampleTable (sampleState 0x539) midFrameStatics 1100
      0 0 0 rfl).2.2.1).trans (by decide),
   ((read_command_timeout sampleCodec sampleTable (sampleState 0x539) midFrameStatics 1101
      0 0 0 rfl).2.2.1).trans (by decide)⟩

/-- C23: every write `rx_packet[byte_count]` should use an index from 3 to 18.  After 16
idle-time bytes `0x00` and the preamble, fed from the initial state, `byte_count` is 19
and the next byte is written to `rx_packet[19]`, past the end of the 19-byte buffer;
after the interrupted preamble `0x55 0x01 0xFF 0x00`, `byte_count` is 1 and the next byte
is written to `rx_packet[1]`. -/
theorem read_command_write_index_out_of_range :
    feed_writes ReadStatics.init sixteenZerosStream = [19]
      ∧ ¬ 19 < PACKET_LENGTH
      ∧ (feed_state ReadStatics.init sixteenZerosStream).byte_count = 20
      ∧ feed_writes ReadStatics.init (interruptedPreamble ++ [(5, 0xAA)]) = [1]
      ∧ feed_writes ReadStatics.init
          [(1, 0x55), (2, 0x01), (3, 0x00), (4, 0xA0), (5, 0xA1)] = [3, 4] := by
  refine ⟨by decide, by decide, by decide, by decide, by decide⟩

end ratgdo
